import Mathlib

/-!
Shallow embedding of the Store-Builder recommendation engine
(`server/recommendation-engine.ts`), its behavioral data model
(`shared/store-schema.ts`) and the multi-tenant database routing
(`server/db.ts`), together with proofs about the engine's behaviour.

Conventions of the embedding:
* JavaScript numbers are modelled as exact rationals (`Rat`); SQL `timestamp`
  values as `Int` seconds, with `INTERVAL 'n days'` as `n * 86400`.
* A SQL result set is a Lean list in row order; `GROUP BY` is determinized to
  group keys in first-occurrence order (ties under `ORDER BY` keep that
  order, matching a stable sort), and `COUNT` / `SUM` / `MAX` aggregates are
  computed over the rows of each group.
* Nullable columns are `Option` values; SQL three-valued logic makes
  `x IN (...)` and `x NOT IN (...)` false when `x` is NULL, and list entries
  that are NULL never match.
* JavaScript truthiness on ids (`if (!customerId)`, `filter(item =>
  item.productId)`) treats both `null` and `0` as false.
* `[...new Set(xs)]` is first-occurrence deduplication.
* A `Map` built by insertion and read with `.values()` is an association
  list in insertion order.
* Each tenant database is the content stored under the store's
  `databaseUrl`; `dbs : String → StoreDb` maps a connection URL to the data
  living behind it, so two stores with the same URL share one database,
  exactly as `getStoreDbByUrl` caches connections by URL.
-/

/-- Stable insertion step: `a` is placed before the first element `b` with
`le a b`, so elements considered equal by `le` keep their original order. -/
def insertSorted (le : α → α → Bool) (a : α) : List α → List α
  | [] => [a]
  | b :: l => if le a b then a :: b :: l else b :: insertSorted le a l

/-- Stable sort (models JavaScript `Array.prototype.sort`, which is stable,
and the deterministic reading of SQL `ORDER BY`). -/
def sortByB (le : α → α → Bool) : List α → List α
  | [] => []
  | a :: l => insertSorted le a (sortByB le l)

/-- First-occurrence deduplication, the order produced by `new Set(xs)`. -/
def dedupKF [DecidableEq α] : List α → List α
  | [] => []
  | a :: l => a :: (dedupKF l).filter (fun b => decide (b ≠ a))

/-- SQL `GROUP BY key` with `COUNT(*)`: group keys in first-occurrence
order, each with the number of rows of that group. -/
def groupCount [DecidableEq κ] (key : α → κ) (l : List α) : List (κ × Nat) :=
  (dedupKF (l.map key)).map (fun k => (k, l.countP (fun a => decide (key a = k))))

/-- SQL `GROUP BY key` with an arbitrary aggregate over the group's rows. -/
def groupAgg [DecidableEq κ] (key : α → κ) (agg : List α → β) (l : List α) :
    List (κ × β) :=
  (dedupKF (l.map key)).map (fun k => (k, agg (l.filter (fun a => decide (key a = k)))))

/-- SQL `MAX` over a group (the empty case is unreachable for a group). -/
def listMax : List Int → Int
  | [] => 0
  | x :: xs => xs.foldl max x

/-- JavaScript truthiness of a nullable id: `null` and `0` are falsy. -/
def truthy : Option Nat → Bool
  | none => false
  | some n => n != 0

/-- SQL `x IN (list)` for a nullable `x` and a list of non-null values. -/
def optInList (x : Option Nat) (l : List Nat) : Bool :=
  match x with
  | some p => l.contains p
  | none => false

/-- SQL `x NOT IN (list)`: NULL is excluded (three-valued logic). -/
def optNotInList (x : Option Nat) (l : List Nat) : Bool :=
  match x with
  | some p => !l.contains p
  | none => false

/-- SQL `x IN (list)` where the list itself may contain NULLs, as produced
by `inArray(col, similarCustomerIds)`: NULL entries never match. -/
def optInOptList (x : Option Nat) (l : List (Option Nat)) : Bool :=
  match x with
  | some p => l.contains (some p)
  | none => false

/-- `customer_behavior.action` values. -/
inductive BAction
  | view
  | addToCart
  | purchase
  | removeFromCart
  | search
deriving DecidableEq

/-- A `customer_behavior` row (columns the engine writes or reads). -/
structure BehaviorEvent where
  customerId : Option Nat
  sessionId : String
  action : BAction
  productId : Option Nat
  searchQuery : Option String
  deviceType : String
  source : String
  timestamp : Int
deriving DecidableEq

/-- A `product_views` row; `productId` and `sessionId` are NOT NULL. -/
structure ProductView where
  customerId : Option Nat
  sessionId : String
  productId : Nat
  viewDuration : Nat
  timestamp : Int
deriving DecidableEq

/-- A `product_category_mappings` row. -/
structure CategoryMapping where
  productId : Nat
  categoryId : Nat
deriving DecidableEq

/-- A `recommendations` row. -/
structure RecRow where
  customerId : Option Nat
  sessionId : String
  productId : Nat
  recommendationType : String
  score : Rat
  reasons : List String
  shown : Bool
  clicked : Bool
  purchased : Bool
  shownAt : Option Int
  clickedAt : Option Int
  purchasedAt : Option Int
  createdAt : Int
deriving DecidableEq

/-- One tenant database: the tables the recommendation engine touches. -/
structure StoreDb where
  behaviors : List BehaviorEvent
  views : List ProductView
  mappings : List CategoryMapping
  recRows : List RecRow
deriving DecidableEq

def emptyStoreDb : StoreDb := ⟨[], [], [], []⟩

/-- `RecommendationRequest` of the engine. -/
inductive RecType
  | collaborative
  | contentBased
  | trending
  | recentlyViewed
  | hybrid
deriving DecidableEq

structure RecommendationRequest where
  storeId : Nat
  customerId : Option Nat
  sessionId : String
  limit : Option Nat
  excludeProductIds : List Nat
  rtype : Option RecType
deriving DecidableEq

/-- `RecommendationResult` of the engine (`type` is the `rtype` field). -/
structure RecommendationResult where
  productId : Nat
  score : Rat
  rtype : String
  reasons : List String
deriving DecidableEq

/-- Products the given customer purchased, from the correlated subquery
`SELECT product_id FROM customer_behavior WHERE customer_id = ? AND
action = 'purchase'` (NULL product ids never match an `IN`/`NOT IN`). -/
def customerPurchasedIds (db : StoreDb) (cid : Nat) : List Nat :=
  (db.behaviors.filter
      (fun e => decide (e.action = .purchase) && decide (e.customerId = some cid))).filterMap
    (·.productId)

/-- Rows feeding the similar-customer query of collaborative filtering. -/
def collabSimilarRows (db : StoreDb) (cid : Nat) : List BehaviorEvent :=
  db.behaviors.filter
    (fun e => decide (e.action = .purchase) && optInList e.productId (customerPurchasedIds db cid))

/-- The similar-customer query: group purchases of the target's products by
customer, `HAVING count(*) > 1`, `ORDER BY count(*) DESC`, `LIMIT 20`. -/
def collabSimilarCustomers (db : StoreDb) (cid : Nat) : List (Option Nat × Nat) :=
  (sortByB (fun a b => b.2 ≤ a.2)
      ((groupCount (·.customerId) (collabSimilarRows db cid)).filter (fun g => 1 < g.2))).take 20

/-- The candidate-product query of collaborative filtering. -/
def collabCandidateRows (db : StoreDb) (req : RecommendationRequest) (cid : Nat)
    (similarCustomerIds : List (Option Nat)) : List BehaviorEvent :=
  db.behaviors.filter
    (fun e => decide (e.action = .purchase) &&
      optInOptList e.customerId similarCustomerIds &&
      optNotInList e.productId (customerPurchasedIds db cid) &&
      (req.excludeProductIds.isEmpty || optNotInList e.productId req.excludeProductIds))

/-- `similarCustomers.map(c => c.customerId).filter(id => id !== customerId)`. -/
def collabSimilarCustomerIds (db : StoreDb) (cid : Nat) : List (Option Nat) :=
  ((collabSimilarCustomers db cid).map (·.1)).filter (fun id => decide (id ≠ some cid))

/-- The candidate products grouped per product with their purchase count,
ordered by count descending and capped to the limit. -/
def collabRankedProducts (db : StoreDb) (req : RecommendationRequest) (cid : Nat) :
    List (Option Nat × Nat) :=
  (sortByB (fun a b => b.2 ≤ a.2)
      (groupCount (·.productId)
        (collabCandidateRows db req cid (collabSimilarCustomerIds db cid)))).take
    (req.limit.getD 10)

/-- `generateCollaborativeRecommendations` on the resolved tenant database. -/
def generateCollaborativeRecommendations (db : StoreDb) (req : RecommendationRequest) :
    List RecommendationResult :=
  if !truthy req.customerId then []
  else if (collabSimilarCustomers db (req.customerId.getD 0)).isEmpty then []
  else
    ((collabRankedProducts db req (req.customerId.getD 0)).filter (fun g => truthy g.1)).map
      (fun g =>
        { productId := g.1.getD 0
          score := min ((g.2 : Rat) / 10) 1
          rtype := "collaborative"
          reasons := ["Customers like you also purchased this"] })

/-- The recent-views query of the content-based strategy: views of the
customer (if present) or session, newest first, `LIMIT 5`. -/
def contentViewedRows (db : StoreDb) (req : RecommendationRequest) : List ProductView :=
  (sortByB (fun a b => b.timestamp ≤ a.timestamp)
      (db.views.filter
        (fun v =>
          if truthy req.customerId then decide (v.customerId = req.customerId)
          else decide (v.sessionId = req.sessionId)))).take 5

/-- Product ids of the recent views (duplicates kept, as in the source). -/
def contentViewedIds (db : StoreDb) (req : RecommendationRequest) : List Nat :=
  (contentViewedRows db req).map (·.productId)

/-- Categories of the viewed products, by frequency descending. -/
def contentCategoryGroups (db : StoreDb) (req : RecommendationRequest) : List (Nat × Nat) :=
  sortByB (fun a b => b.2 ≤ a.2)
    (groupCount (·.categoryId)
      (db.mappings.filter (fun m => (contentViewedIds db req).contains m.productId)))

/-- The top (at most three) categories by view frequency. -/
def contentTopCategoryIds (db : StoreDb) (req : RecommendationRequest) : List Nat :=
  ((contentCategoryGroups db req).take 3).map (·.1)

/-- Candidate mapping rows: other products of the top categories. -/
def contentCandidateRows (db : StoreDb) (req : RecommendationRequest) : List CategoryMapping :=
  db.mappings.filter
    (fun m => (contentTopCategoryIds db req).contains m.categoryId &&
      !(contentViewedIds db req).contains m.productId &&
      (req.excludeProductIds.isEmpty || !req.excludeProductIds.contains m.productId))

/-- The candidate products grouped per product with the number of top
categories they fall in, ordered descending and capped to the limit. -/
def contentRankedProducts (db : StoreDb) (req : RecommendationRequest) : List (Nat × Nat) :=
  (sortByB (fun a b => b.2 ≤ a.2)
      (groupCount (·.productId) (contentCandidateRows db req))).take (req.limit.getD 10)

/-- `generateContentBasedRecommendations` on the resolved tenant database. -/
def generateContentBasedRecommendations (db : StoreDb) (req : RecommendationRequest) :
    List RecommendationResult :=
  if (contentViewedRows db req).isEmpty then []
  else if (contentCategoryGroups db req).isEmpty then []
  else
    (contentRankedProducts db req).map
      (fun g =>
        { productId := g.1
          score := min ((g.2 : Rat) / ((contentTopCategoryIds db req).length : Rat)) 1
          rtype := "content_based"
          reasons := ["Similar to products you viewed"] })

/-- `CASE WHEN action = 'view' THEN 1 WHEN action = 'purchase' THEN 3 ELSE 0`. -/
def actionWeight : BAction → Nat
  | .view => 1
  | .purchase => 3
  | _ => 0

/-- Behavior rows feeding the trending query: last 7 days, views and
purchases only, minus exclusions. -/
def trendingWindowRows (now : Int) (db : StoreDb) (req : RecommendationRequest) :
    List BehaviorEvent :=
  db.behaviors.filter
    (fun e => decide (now - 7 * 86400 < e.timestamp) &&
      (decide (e.action = .view) || decide (e.action = .purchase)) &&
      (req.excludeProductIds.isEmpty || optNotInList e.productId req.excludeProductIds))

/-- Trending groups: per product id (`COUNT(*)`, weighted total),
`HAVING COUNT(*) > 2`, `ORDER BY` total `DESC`, `LIMIT limit`. -/
def trendingProductGroups (now : Int) (db : StoreDb) (req : RecommendationRequest) :
    List (Option Nat × (Nat × Nat)) :=
  (sortByB (fun a b => b.2.2 ≤ a.2.2)
      ((groupAgg (·.productId)
          (fun g => (g.length, (g.map (fun e => actionWeight e.action)).sum))
          (trendingWindowRows now db req)).filter (fun g => 2 < g.2.1))).take
    (req.limit.getD 10)

/-- `trendingProducts[0]?.totalScore || 1` (JavaScript `||` maps 0 to 1). -/
def trendingMaxScore (now : Int) (db : StoreDb) (req : RecommendationRequest) : Rat :=
  match (trendingProductGroups now db req).head? with
  | some h => if h.2.2 = 0 then 1 else (h.2.2 : Rat)
  | none => 1

/-- `generateTrendingRecommendations` on the resolved tenant database. -/
def generateTrendingRecommendations (now : Int) (db : StoreDb) (req : RecommendationRequest) :
    List RecommendationResult :=
  ((trendingProductGroups now db req).filter (fun g => truthy g.1)).map
    (fun g =>
      { productId := g.1.getD 0
        score := (g.2.2 : Rat) / trendingMaxScore now db req
        rtype := "trending"
        reasons := ["Trending this week"] })

/-- Recently-viewed groups: views of the customer/session in the last 30
days, minus exclusions, grouped per product with `MAX(timestamp)`,
ordered by that timestamp descending, `LIMIT limit`. -/
def recentlyViewedRows (now : Int) (db : StoreDb) (req : RecommendationRequest) :
    List ProductView :=
  db.views.filter
    (fun v =>
      (if truthy req.customerId then decide (v.customerId = req.customerId)
        else decide (v.sessionId = req.sessionId)) &&
      decide (now - 30 * 86400 < v.timestamp) &&
      (req.excludeProductIds.isEmpty ||
        !req.excludeProductIds.contains v.productId))

def recentlyViewedGroups (now : Int) (db : StoreDb) (req : RecommendationRequest) :
    List (Nat × Int) :=
  (sortByB (fun a b => b.2 ≤ a.2)
      (groupAgg (·.productId) (fun g => listMax (g.map (·.timestamp)))
        (recentlyViewedRows now db req))).take (req.limit.getD 10)

/-- `generateRecentlyViewedRecommendations` on the resolved tenant database. -/
def generateRecentlyViewedRecommendations (now : Int) (db : StoreDb)
    (req : RecommendationRequest) : List RecommendationResult :=
  (recentlyViewedGroups now db req).enum.map
    (fun p =>
      { productId := p.2.1
        score := max ((9 : Rat) / 10 - (p.1 : Rat) * (1 / 10)) (1 / 10)
        rtype := "recently_viewed"
        reasons := ["You viewed this recently"] })

/-- `Math.ceil(limit * (mult / 10))` under the exact-rational reading. -/
def ceilTenths (limit mult : Nat) : Nat := (limit * mult + 9) / 10

/-- The four weighted strategy outputs concatenated, collaborative ×0.4,
content-based ×0.3, trending ×0.2, recently-viewed ×0.1, with each
strategy capped to its fractional share of the limit. -/
def hybridCollabW (now : Int) (db : StoreDb) (req : RecommendationRequest) :
    List RecommendationResult :=
  (generateCollaborativeRecommendations db
      { req with limit := some (ceilTenths (req.limit.getD 10) 3) }).map
    (fun r => { r with score := r.score * (4 / 10) })

def hybridContentW (now : Int) (db : StoreDb) (req : RecommendationRequest) :
    List RecommendationResult :=
  (generateContentBasedRecommendations db
      { req with limit := some (ceilTenths (req.limit.getD 10) 3) }).map
    (fun r => { r with score := r.score * (3 / 10) })

def hybridTrendingW (now : Int) (db : StoreDb) (req : RecommendationRequest) :
    List RecommendationResult :=
  (generateTrendingRecommendations now db
      { req with limit := some (ceilTenths (req.limit.getD 10) 2) }).map
    (fun r => { r with score := r.score * (2 / 10) })

def hybridRecentW (now : Int) (db : StoreDb) (req : RecommendationRequest) :
    List RecommendationResult :=
  (generateRecentlyViewedRecommendations now db
      { req with limit := some (ceilTenths (req.limit.getD 10) 2) }).map
    (fun r => { r with score := r.score * (1 / 10) })

def hybridWeighted (now : Int) (db : StoreDb) (req : RecommendationRequest) :
    List RecommendationResult :=
  hybridCollabW now db req ++ hybridContentW now db req ++
    hybridTrendingW now db req ++ hybridRecentW now db req

/-- One step of the `productScores` map: merge a recommendation into the
association list (deduplicate by product id, add scores, union reasons,
relabel as hybrid). -/
def mergeInto (acc : List RecommendationResult) (r : RecommendationResult) :
    List RecommendationResult :=
  if acc.any (fun e => decide (e.productId = r.productId)) then
    acc.map
      (fun e =>
        if decide (e.productId = r.productId) then
          { e with
            score := e.score + r.score
            reasons := dedupKF (e.reasons ++ r.reasons)
            rtype := "hybrid" }
        else e)
  else acc ++ [{ r with rtype := "hybrid" }]

/-- `productScores.values()`: the deduplicated merged recommendations in
insertion order. -/
def hybridMerged (now : Int) (db : StoreDb) (req : RecommendationRequest) :
    List RecommendationResult :=
  (hybridWeighted now db req).foldl mergeInto []

/-- `generateHybridRecommendations` on the resolved tenant database. -/
def generateHybridRecommendations (now : Int) (db : StoreDb) (req : RecommendationRequest) :
    List RecommendationResult :=
  (sortByB (fun a b => b.score ≤ a.score) (hybridMerged now db req)).take (req.limit.getD 10)

/-- `generateRecommendations`: dispatch on the requested type, defaulting
to hybrid. -/
def generateRecommendations (now : Int) (db : StoreDb) (req : RecommendationRequest) :
    List RecommendationResult :=
  match req.rtype.getD .hybrid with
  | .collaborative => generateCollaborativeRecommendations db req
  | .contentBased => generateContentBasedRecommendations db req
  | .trending => generateTrendingRecommendations now db req
  | .recentlyViewed => generateRecentlyViewedRecommendations now db req
  | .hybrid => generateHybridRecommendations now db req

/-- A `stores` row of the main database (the fields tenant routing uses). -/
structure StoreRecord where
  id : Nat
  databaseUrl : String
deriving DecidableEq

/-- The world: the main database's store table plus, for every connection
URL, the tenant data living behind it (`getStoreDbByUrl` hands every
caller with the same URL the same database). -/
structure World where
  stores : List StoreRecord
  dbs : String → StoreDb

/-- `storage.getStore(storeId)`: the store row with the given id. -/
def getStore (w : World) (storeId : Nat) : Option StoreRecord :=
  w.stores.find? (fun s => decide (s.id = storeId))

/-- `RecommendationEngine.getStoreDatabase`: resolve the tenant, then open
its database by URL; `Store not found` when no store matches. -/
def getStoreDatabase (w : World) (storeId : Nat) : Except String StoreDb :=
  match getStore w storeId with
  | none => .error "Store not found"
  | some st => .ok (w.dbs st.databaseUrl)

/-- Replace the database behind one connection URL. -/
def updateDbAt (w : World) (url : String) (f : StoreDb → StoreDb) : World :=
  { w with dbs := fun u => if u = url then f (w.dbs u) else w.dbs u }

/-- Input of `trackBehavior`. -/
structure TrackBehaviorData where
  customerId : Option Nat
  sessionId : String
  storeId : Nat
  productId : Option Nat
  action : BAction
  searchQuery : Option String
deriving DecidableEq

/-- The row `trackBehavior` inserts (`deviceType`/`source` defaulted). -/
def behaviorRowOf (now : Int) (d : TrackBehaviorData) : BehaviorEvent :=
  { customerId := d.customerId
    sessionId := d.sessionId
    action := d.action
    productId := d.productId
    searchQuery := d.searchQuery
    deviceType := "desktop"
    source := "direct"
    timestamp := now }

/-- The body of `trackBehavior` before its `catch`: resolve the tenant
(which may fail) and append one behavior row (the insert itself may fail,
modelled by the `insertFails` oracle). -/
def trackBehaviorTry (now : Int) (w : World) (insertFails : Bool) (d : TrackBehaviorData) :
    Except String World :=
  match getStore w d.storeId with
  | none => .error "Store not found"
  | some st =>
    if insertFails then .error "insert failed"
    else
      .ok (updateDbAt w st.databaseUrl
        (fun db => { db with behaviors := db.behaviors ++ [behaviorRowOf now d] }))

/-- `trackBehavior`: every failure is caught, logged and swallowed, so the
caller always gets a success (with the world unchanged on failure). -/
def trackBehavior (now : Int) (w : World) (insertFails : Bool) (d : TrackBehaviorData) :
    Except String World :=
  match trackBehaviorTry now w insertFails d with
  | .ok w' => .ok w'
  | .error _ => .ok w

/-- Input of `trackRecommendationFeedback`. -/
inductive FeedbackAction
  | shown
  | clicked
  | purchased
deriving DecidableEq

structure FeedbackData where
  storeId : Nat
  customerId : Option Nat
  sessionId : String
  productId : Nat
  action : FeedbackAction
deriving DecidableEq

/-- The `WHERE` clause of the feedback update: by customer id when it is
truthy, else by session id, and always by product id. -/
def feedbackMatches (d : FeedbackData) (r : RecRow) : Bool :=
  (if truthy d.customerId then decide (r.customerId = d.customerId)
    else decide (r.sessionId = d.sessionId)) &&
    decide (r.productId = d.productId)

/-- `updateData[action] = true; updateData[actionAt] = new Date()` applied
to one matching row. -/
def applyFeedback (now : Int) (d : FeedbackData) (r : RecRow) : RecRow :=
  if feedbackMatches d r then
    match d.action with
    | .shown => { r with shown := true, shownAt := some now }
    | .clicked => { r with clicked := true, clickedAt := some now }
    | .purchased => { r with purchased := true, purchasedAt := some now }
  else r

/-- `trackRecommendationFeedback`: tenant resolution happens before the
`try` block (so `Store not found` propagates), then all matching
recommendation rows are updated; zero matches update nothing. -/
def trackRecommendationFeedback (now : Int) (w : World) (d : FeedbackData) :
    Except String World :=
  match getStore w d.storeId with
  | none => .error "Store not found"
  | some st =>
    .ok (updateDbAt w st.databaseUrl
      (fun db => { db with recRows := db.recRows.map (applyFeedback now d) }))

/-- One row of `getRecommendationAnalytics`. -/
structure AnalyticsRow where
  recommendationType : String
  totalShown : Nat
  totalClicked : Nat
  totalPurchased : Nat
  clickThroughRate : Rat
  conversionRate : Rat
deriving DecidableEq

/-- `ROUND(x, 2)` of Postgres on a nonnegative numeric value. -/
def roundTo2 (x : Rat) : Rat := ((round (x * 100) : Int) : Rat) / 100

/-- `getRecommendationAnalytics` on the resolved tenant database: shown
recommendations of the window grouped by type, with click-through and
conversion rates in percent rounded to two decimals. -/
def getRecommendationAnalytics (now : Int) (db : StoreDb) (days : Nat) : List AnalyticsRow :=
  (groupAgg (·.recommendationType)
      (fun g => (g.length, g.countP (·.clicked), g.countP (·.purchased)))
      (db.recRows.filter
        (fun r => r.shown && decide (now - (days : Int) * 86400 < r.createdAt)))).map
    (fun g =>
      { recommendationType := g.1
        totalShown := g.2.1
        totalClicked := g.2.2.1
        totalPurchased := g.2.2.2
        clickThroughRate := roundTo2 ((g.2.2.1 : Rat) * 100 / (g.2.1 : Rat))
        conversionRate := roundTo2 ((g.2.2.2 : Rat) * 100 / (g.2.1 : Rat)) })

/-- `generateRecommendations` at the world level: every strategy resolves
the tenant itself and a missing tenant is caught, yielding `[]`. -/
def worldGenerateRecommendations (now : Int) (w : World) (req : RecommendationRequest) :
    List RecommendationResult :=
  match getStore w req.storeId with
  | none => []
  | some st => generateRecommendations now (w.dbs st.databaseUrl) req

/-- `getRecommendationAnalytics` at the world level (tenant resolution is
outside the `try`, so a missing tenant propagates). -/
def worldGetRecommendationAnalytics (now : Int) (w : World) (storeId : Nat) (days : Nat) :
    Except String (List AnalyticsRow) :=
  match getStore w storeId with
  | none => .error "Store not found"
  | some st => .ok (getRecommendationAnalytics now (w.dbs st.databaseUrl) days)

/-- `createStoreDatabase`: every store it provisions gets the main
`DATABASE_URL`, so all such stores share one physical database. -/
def createStoreDatabase (mainUrl : String) (w : World) (storeId : Nat) : World :=
  { w with
    stores := w.stores.map (fun s => if s.id = storeId then { s with databaseUrl := mainUrl } else s) }

/-- Run a best-effort call, keeping the old world if it reports an error. -/
def runOk (w : World) (r : Except String World) : World :=
  match r with
  | .ok w' => w'
  | .error _ => w

theorem mem_insertSorted {le : α → α → Bool} {a x : α} {l : List α} :
    x ∈ insertSorted le a l ↔ x = a ∨ x ∈ l := by
  induction l with
  | nil => simp [insertSorted]
  | cons b l ih =>
    simp only [insertSorted]
    cases hab : le a b
    · rw [if_neg (by simp)]
      simp only [List.mem_cons, ih]
      tauto
    · rw [if_pos (by simp)]
      simp only [List.mem_cons]

theorem insertSorted_perm (le : α → α → Bool) (a : α) : ∀ l : List α,
    (insertSorted le a l).Perm (a :: l)
  | [] => .refl _
  | b :: l => by
    simp only [insertSorted]
    cases hab : le a b
    · rw [if_neg (by simp)]
      exact ((insertSorted_perm le a l).cons b).trans (List.Perm.swap a b l)
    · rw [if_pos (by simp)]

theorem sortByB_perm (le : α → α → Bool) : ∀ l : List α, (sortByB le l).Perm l
  | [] => .refl _
  | a :: l => (insertSorted_perm le a _).trans ((sortByB_perm le l).cons a)

theorem mem_sortByB {le : α → α → Bool} {x : α} {l : List α} :
    x ∈ sortByB le l ↔ x ∈ l :=
  (sortByB_perm le l).mem_iff

theorem pairwise_insertSorted {le : α → α → Bool}
    (htrans : ∀ a b c, le a b = true → le b c = true → le a c = true)
    (htot : ∀ a b, le a b = true ∨ le b a = true) (a : α) :
    ∀ {l : List α}, l.Pairwise (fun x y => le x y = true) →
      (insertSorted le a l).Pairwise (fun x y => le x y = true) := by
  intro l h
  induction l with
  | nil => simp [insertSorted]
  | cons b l ih =>
    rcases List.pairwise_cons.mp h with ⟨hb, hl⟩
    simp only [insertSorted]
    cases hab : le a b
    · rw [if_neg (by simp)]
      refine List.pairwise_cons.mpr ⟨?_, ih hl⟩
      intro x hx
      rcases mem_insertSorted.mp hx with rfl | hx
      · exact (htot x b).resolve_left (by simp [hab])
      · exact hb x hx
    · rw [if_pos (by simp)]
      refine List.pairwise_cons.mpr ⟨?_, h⟩
      intro x hx
      rcases List.mem_cons.mp hx with rfl | hx
      · exact hab
      · exact htrans a b x hab (hb x hx)

theorem pairwise_sortByB {le : α → α → Bool}
    (htrans : ∀ a b c, le a b = true → le b c = true → le a c = true)
    (htot : ∀ a b, le a b = true ∨ le b a = true) :
    ∀ l : List α, (sortByB le l).Pairwise (fun x y => le x y = true)
  | [] => .nil
  | a :: l => pairwise_insertSorted htrans htot a (pairwise_sortByB htrans htot l)

/-- In a sorted list the head dominates every member. -/
theorem sorted_head_dominates {le : α → α → Bool}
    (htot : ∀ a b, le a b = true ∨ le b a = true) {h : α} {t : List α}
    (hp : (h :: t).Pairwise (fun x y => le x y = true)) :
    ∀ x ∈ h :: t, le h x = true := by
  intro x hx
  rcases List.mem_cons.mp hx with rfl | hx
  · exact (htot x x).elim id id
  · exact (List.pairwise_cons.mp hp).1 x hx

theorem mem_dedupKF [DecidableEq α] {x : α} : ∀ {l : List α}, x ∈ dedupKF l ↔ x ∈ l := by
  intro l
  induction l with
  | nil => simp [dedupKF]
  | cons a l ih =>
    simp only [dedupKF, List.mem_cons, List.mem_filter, ih, decide_eq_true_eq]
    by_cases hx : x = a
    · simp [hx]
    · simp [hx]

theorem nodup_dedupKF [DecidableEq α] : ∀ (l : List α), (dedupKF l).Nodup := by
  intro l
  induction l with
  | nil => simp [dedupKF]
  | cons a l ih =>
    simp only [dedupKF, List.nodup_cons]
    refine ⟨?_, ih.filter _⟩
    intro hmem
    have h2 := (List.mem_filter.mp hmem).2
    simp at h2

theorem filter_swap (p q : α → Bool) (l : List α) :
    (l.filter q).filter p = (l.filter p).filter q := by
  simp only [List.filter_filter]
  exact List.filter_congr (fun a _ => Bool.and_comm _ _)

theorem filter_dedupKF [DecidableEq α] (p : α → Bool) :
    ∀ l : List α, (dedupKF l).filter p = dedupKF (l.filter p)
  | [] => rfl
  | a :: l => by
    cases hpa : p a
    · have hpt : ∀ b ∈ dedupKF l, (p b && decide (b ≠ a)) = p b := by
        intro b _
        cases hpb : p b
        · simp
        · have hba : b ≠ a := by
            intro hc
            rw [hc, hpa] at hpb
            cases hpb
          simp [hba]
      calc (dedupKF (a :: l)).filter p
          = ((dedupKF l).filter (fun b => decide (b ≠ a))).filter p := by
            show List.filter p (a :: _) = _
            rw [List.filter_cons_of_neg (by simp [hpa])]
        _ = (dedupKF l).filter (fun b => p b && decide (b ≠ a)) := List.filter_filter _ _
        _ = (dedupKF l).filter p := List.filter_congr hpt
        _ = dedupKF (l.filter p) := filter_dedupKF p l
        _ = dedupKF ((a :: l).filter p) := by
            rw [List.filter_cons_of_neg (by simp [hpa])]
    · calc (dedupKF (a :: l)).filter p
          = a :: ((dedupKF l).filter (fun b => decide (b ≠ a))).filter p := by
            show List.filter p (a :: _) = _
            rw [List.filter_cons_of_pos (by simp [hpa])]
        _ = a :: ((dedupKF l).filter p).filter (fun b => decide (b ≠ a)) := by
            rw [filter_swap]
        _ = a :: (dedupKF (l.filter p)).filter (fun b => decide (b ≠ a)) := by
            rw [filter_dedupKF p l]
        _ = dedupKF (a :: l.filter p) := rfl
        _ = dedupKF ((a :: l).filter p) := by
            rw [List.filter_cons_of_pos (by simp [hpa])]

theorem dedupKF_idem_append [DecidableEq α] :
    ∀ (n : Nat) (a b : List α), a.length ≤ n →
      dedupKF (dedupKF a ++ b) = dedupKF (a ++ b) := by
  intro n
  induction n with
  | zero =>
    intro a b ha
    rw [List.length_eq_zero.mp (Nat.le_zero.mp ha)]
    rfl
  | succ n ih =>
    intro a b ha
    match a with
    | [] => rfl
    | x :: a' =>
      have ha' : a'.length ≤ n := Nat.le_of_succ_le_succ ha
      show x :: (dedupKF ((dedupKF a').filter (fun c => decide (c ≠ x)) ++ b)).filter
          (fun c => decide (c ≠ x)) =
        x :: (dedupKF (a' ++ b)).filter (fun c => decide (c ≠ x))
      rw [filter_dedupKF (fun c => decide (c ≠ x)) a']
      rw [ih _ b (le_trans (List.length_filter_le _ _) ha')]
      rw [filter_dedupKF (fun c => decide (c ≠ x))
        (a'.filter (fun c => decide (c ≠ x)) ++ b)]
      rw [filter_dedupKF (fun c => decide (c ≠ x)) (a' ++ b)]
      rw [List.filter_append, List.filter_append, List.filter_filter]
      exact congrArg (fun t => x :: dedupKF (t ++ b.filter (fun c => decide (c ≠ x))))
        (List.filter_congr (fun c _ => Bool.and_self _))

theorem map_fst_keyPair (f : κ → β) : ∀ l : List κ,
    (l.map (fun k => (k, f k))).map Prod.fst = l := by
  intro l
  induction l with
  | nil => rfl
  | cons a t ih => simp only [List.map_cons, ih]

/-- The group keys of `groupCount` are exactly the deduplicated keys. -/
theorem groupCount_keys [DecidableEq κ] (key : α → κ) (l : List α) :
    (groupCount key l).map Prod.fst = dedupKF (l.map key) :=
  map_fst_keyPair _ _

theorem groupCount_keys_nodup [DecidableEq κ] (key : α → κ) (l : List α) :
    ((groupCount key l).map Prod.fst).Nodup := by
  rw [groupCount_keys]
  exact nodup_dedupKF _

theorem mem_groupCount [DecidableEq κ] {key : α → κ} {l : List α} {g : κ × Nat} :
    g ∈ groupCount key l ↔
      g.1 ∈ l.map key ∧ g.2 = l.countP (fun a => decide (key a = g.1)) := by
  constructor
  · intro hg
    rcases List.mem_map.mp hg with ⟨k, hk, hgk⟩
    cases hgk
    exact ⟨mem_dedupKF.mp hk, rfl⟩
  · rintro ⟨h1, h2⟩
    refine List.mem_map.mpr ⟨g.1, mem_dedupKF.mpr h1, ?_⟩
    rw [← h2]

theorem groupAgg_keys [DecidableEq κ] (key : α → κ) (agg : List α → β) (l : List α) :
    (groupAgg key agg l).map Prod.fst = dedupKF (l.map key) :=
  map_fst_keyPair _ _

theorem groupAgg_keys_nodup [DecidableEq κ] (key : α → κ) (agg : List α → β) (l : List α) :
    ((groupAgg key agg l).map Prod.fst).Nodup := by
  rw [groupAgg_keys]
  exact nodup_dedupKF _

theorem mem_groupAgg [DecidableEq κ] {key : α → κ} {agg : List α → β} {l : List α}
    {g : κ × β} :
    g ∈ groupAgg key agg l ↔
      g.1 ∈ l.map key ∧ g.2 = agg (l.filter (fun a => decide (key a = g.1))) := by
  constructor
  · intro hg
    rcases List.mem_map.mp hg with ⟨k, hk, hgk⟩
    cases hgk
    exact ⟨mem_dedupKF.mp hk, rfl⟩
  · rintro ⟨h1, h2⟩
    refine List.mem_map.mpr ⟨g.1, mem_dedupKF.mpr h1, ?_⟩
    rw [← h2]

/-- The update applied when a product is already in the `productScores`
map: add the weighted score, union the reasons, relabel as hybrid. -/
def combineEntry (e r : RecommendationResult) : RecommendationResult :=
  { e with
    score := e.score + r.score
    reasons := dedupKF (e.reasons ++ r.reasons)
    rtype := "hybrid" }

/-- The entry of the `productScores` map for one product after processing a
list of contributions (`none` when the product was never contributed). -/
def combineAll (o : Option RecommendationResult) : List RecommendationResult →
    Option RecommendationResult
  | [] => o
  | r :: rs =>
    match o with
    | none => combineAll (some { r with rtype := "hybrid" }) rs
    | some e => combineAll (some (combineEntry e r)) rs

/-- Membership test by product id. -/
def keyP (p : Nat) (e : RecommendationResult) : Bool := decide (e.productId = p)

theorem mergeInto_eq (acc : List RecommendationResult) (r : RecommendationResult) :
    mergeInto acc r =
      if acc.any (keyP r.productId) then
        acc.map (fun e => if keyP r.productId e then combineEntry e r else e)
      else acc ++ [{ r with rtype := "hybrid" }] := rfl

theorem combineEntry_productId (e r : RecommendationResult) :
    (combineEntry e r).productId = e.productId := rfl

theorem mergeInto_of_mem {acc : List RecommendationResult} {r : RecommendationResult}
    (h : acc.any (keyP r.productId) = true) :
    mergeInto acc r =
      acc.map (fun e => if keyP r.productId e then combineEntry e r else e) := by
  rw [mergeInto_eq, if_pos h]

theorem mergeInto_of_not_mem {acc : List RecommendationResult} {r : RecommendationResult}
    (h : acc.any (keyP r.productId) = false) :
    mergeInto acc r = acc ++ [{ r with rtype := "hybrid" }] := by
  rw [mergeInto_eq, if_neg (by simp [h])]

theorem mergeInto_map_productId (acc : List RecommendationResult)
    (r : RecommendationResult) :
    (mergeInto acc r).map (·.productId) =
      if acc.any (keyP r.productId) then acc.map (·.productId)
      else acc.map (·.productId) ++ [r.productId] := by
  by_cases hany : acc.any (keyP r.productId) = true
  · rw [mergeInto_of_mem hany, if_pos hany, List.map_map]
    refine List.map_congr_left ?_
    intro e _
    by_cases he : keyP r.productId e = true
    · simp [Function.comp, he, combineEntry_productId]
    · simp [Function.comp, he]
  · rw [mergeInto_of_not_mem (by simpa using hany), if_neg hany]
    simp

/-- Pairwise-distinct product ids, the `Map` key invariant. -/
def nodupKeys (l : List RecommendationResult) : Prop := (l.map (·.productId)).Nodup

theorem nodupKeys_mergeInto {acc : List RecommendationResult} (r : RecommendationResult)
    (h : nodupKeys acc) : nodupKeys (mergeInto acc r) := by
  unfold nodupKeys
  rw [mergeInto_map_productId]
  by_cases hany : acc.any (keyP r.productId) = true
  · rw [if_pos hany]
    exact h
  · rw [if_neg hany]
    refine h.append (List.nodup_singleton _) ?_
    intro x hx hx'
    rcases List.mem_singleton.mp hx' with rfl
    rcases List.mem_map.mp hx with ⟨e, he, hpe⟩
    have hkey : keyP r.productId e = true := by simp [keyP, hpe]
    exact hany (List.any_eq_true.mpr ⟨e, he, hkey⟩)

theorem find?_map_combine_self (r : RecommendationResult) :
    ∀ l : List RecommendationResult,
      (l.map (fun e => if keyP r.productId e then combineEntry e r else e)).find?
          (keyP r.productId) =
        (l.find? (keyP r.productId)).map (fun e => combineEntry e r) := by
  intro l
  induction l with
  | nil => rfl
  | cons a t ih =>
    by_cases ha : keyP r.productId a = true
    · have h1 : keyP r.productId (combineEntry a r) = true := by
        simpa [keyP, combineEntry_productId] using ha
      rw [List.map_cons, if_pos ha, List.find?_cons_of_pos _ h1,
        List.find?_cons_of_pos _ ha]
      rfl
    · rw [List.map_cons, if_neg ha, List.find?_cons_of_neg _ ha,
        List.find?_cons_of_neg _ ha]
      exact ih

theorem find?_map_combine_other (r : RecommendationResult) (p : Nat)
    (hrp : r.productId ≠ p) :
    ∀ l : List RecommendationResult,
      (l.map (fun e => if keyP r.productId e then combineEntry e r else e)).find?
          (keyP p) =
        l.find? (keyP p) := by
  intro l
  induction l with
  | nil => rfl
  | cons a t ih =>
    by_cases hap : keyP p a = true
    · have h1 : a.productId = p := by simpa [keyP] using hap
      have har : ¬ keyP r.productId a = true := by
        simp [keyP, h1]
        exact fun h => hrp h.symm
      rw [List.map_cons, if_neg har, List.find?_cons_of_pos _ hap,
        List.find?_cons_of_pos _ hap]
    · by_cases har : keyP r.productId a = true
      · have h2 : ¬ keyP p (combineEntry a r) = true := by
          simpa [keyP, combineEntry_productId] using hap
        rw [List.map_cons, if_pos har, List.find?_cons_of_neg _ h2,
          List.find?_cons_of_neg _ hap]
        exact ih
      · rw [List.map_cons, if_neg har, List.find?_cons_of_neg _ hap,
          List.find?_cons_of_neg _ hap]
        exact ih

theorem find?_mergeInto (acc : List RecommendationResult) (r : RecommendationResult)
    (p : Nat) :
    (mergeInto acc r).find? (keyP p) =
      if r.productId = p then
        match acc.find? (keyP p) with
        | some e => some (combineEntry e r)
        | none => some { r with rtype := "hybrid" }
      else acc.find? (keyP p) := by
  by_cases hrp : r.productId = p
  · subst hrp
    rw [if_pos rfl]
    by_cases hany : acc.any (keyP r.productId) = true
    · have hsome : (acc.find? (keyP r.productId)).isSome :=
        List.find?_isSome.mpr (List.any_eq_true.mp hany)
      obtain ⟨e, hf⟩ := Option.isSome_iff_exists.mp hsome
      rw [mergeInto_of_mem hany, find?_map_combine_self, hf]
      rfl
    · have hnone : acc.find? (keyP r.productId) = none := by
        rw [List.find?_eq_none]
        intro x hx hpx
        exact hany (List.any_eq_true.mpr ⟨x, hx, hpx⟩)
      rw [mergeInto_of_not_mem (by simpa using hany), List.find?_append, hnone]
      have hr : keyP r.productId ({ r with rtype := "hybrid" } : RecommendationResult)
          = true := by simp [keyP]
      rw [List.find?_cons_of_pos _ hr]
      rfl
  · rw [if_neg hrp]
    by_cases hany : acc.any (keyP r.productId) = true
    · rw [mergeInto_of_mem hany, find?_map_combine_other r p hrp]
    · have hr : ¬ keyP p ({ r with rtype := "hybrid" } : RecommendationResult) = true := by
        simp [keyP, hrp]
      rw [mergeInto_of_not_mem (by simpa using hany), List.find?_append,
        List.find?_cons_of_neg _ hr]
      cases acc.find? (keyP p) <;> rfl

theorem foldl_mergeInto_find? (p : Nat) :
    ∀ (l acc : List RecommendationResult), nodupKeys acc →
      (l.foldl mergeInto acc).find? (keyP p) =
        combineAll (acc.find? (keyP p)) (l.filter (keyP p))
  | [], acc, _ => rfl
  | r :: l, acc, h => by
    rw [List.foldl_cons, foldl_mergeInto_find? p l (mergeInto acc r) (nodupKeys_mergeInto r h),
      find?_mergeInto]
    by_cases hrp : r.productId = p
    · rw [if_pos hrp]
      have hkr : keyP p r = true := by simp [keyP, hrp]
      rw [List.filter_cons_of_pos hkr]
      cases hf : acc.find? (keyP p) <;> rfl
    · rw [if_neg hrp]
      have hkr : ¬ keyP p r = true := by simp [keyP, hrp]
      rw [List.filter_cons_of_neg hkr]

theorem combineAll_some (e : RecommendationResult) : ∀ rs : List RecommendationResult,
    combineAll (some e) rs = some (rs.foldl combineEntry e)
  | [] => rfl
  | r :: rs => combineAll_some (combineEntry e r) rs

theorem combineAll_none_cons (r : RecommendationResult) (rs : List RecommendationResult) :
    combineAll none (r :: rs) =
      some (rs.foldl combineEntry { r with rtype := "hybrid" }) :=
  combineAll_some _ rs

theorem foldl_combineEntry_productId (e : RecommendationResult) :
    ∀ rs : List RecommendationResult,
      (rs.foldl combineEntry e).productId = e.productId := by
  intro rs
  induction rs generalizing e with
  | nil => rfl
  | cons r rs ih => rw [List.foldl_cons, ih, combineEntry_productId]

theorem foldl_combineEntry_score (e : RecommendationResult) :
    ∀ rs : List RecommendationResult,
      (rs.foldl combineEntry e).score = e.score + (rs.map (·.score)).sum := by
  intro rs
  induction rs generalizing e with
  | nil => simp
  | cons r rs ih =>
    rw [List.foldl_cons, ih]
    show (e.score + r.score) + _ = _
    rw [List.map_cons, List.sum_cons, add_assoc]

theorem foldl_combineEntry_rtype (e : RecommendationResult) :
    ∀ rs : List RecommendationResult, rs ≠ [] →
      (rs.foldl combineEntry e).rtype = "hybrid" := by
  intro rs
  induction rs generalizing e with
  | nil => intro h; exact absurd rfl h
  | cons r rs ih =>
    intro _
    match rs with
    | [] => rfl
    | r' :: rs' => exact ih (combineEntry e r) (by simp)

theorem foldl_combineEntry_reasons (e : RecommendationResult) :
    ∀ rs : List RecommendationResult, rs ≠ [] →
      (rs.foldl combineEntry e).reasons =
        dedupKF (e.reasons ++ (rs.map (·.reasons)).flatten) := by
  intro rs
  induction rs generalizing e with
  | nil => intro h; exact absurd rfl h
  | cons r rs ih =>
    intro _
    match rs with
    | [] =>
      show (combineEntry e r).reasons = _
      simp [combineEntry]
    | r' :: rs' =>
      rw [List.foldl_cons, ih (combineEntry e r) (by simp)]
      show dedupKF (dedupKF (e.reasons ++ r.reasons) ++ _) = _
      rw [dedupKF_idem_append (e.reasons ++ r.reasons).length _ _ le_rfl]
      simp [List.append_assoc]

theorem nodupKeys_foldl_mergeInto :
    ∀ (l acc : List RecommendationResult), nodupKeys acc →
      nodupKeys (l.foldl mergeInto acc)
  | [], _, h => h
  | r :: l, acc, h =>
    nodupKeys_foldl_mergeInto l (mergeInto acc r) (nodupKeys_mergeInto r h)

theorem countP_le_one_of_nodupKeys :
    ∀ {l : List RecommendationResult}, nodupKeys l → ∀ p, l.countP (keyP p) ≤ 1 := by
  intro l
  induction l with
  | nil => intro _ p; simp
  | cons a t ih =>
    intro h p
    have h0 : (List.map (·.productId) (a :: t)).Nodup := h
    rw [List.map_cons, List.nodup_cons] at h0
    rw [List.countP_cons]
    by_cases hap : keyP p a = true
    · have ht0 : t.countP (keyP p) = 0 := by
        rw [List.countP_eq_zero]
        intro e het hke
        refine h0.1 ?_
        have h1 : e.productId = p := by simpa [keyP] using hke
        have h2 : a.productId = p := by simpa [keyP] using hap
        rw [h2, ← h1]
        exact List.mem_map.mpr ⟨e, het, rfl⟩
      simp [ht0, hap]
    · have hap' : keyP p a = false := by simpa using hap
      simpa [hap'] using ih h0.2 p

theorem find?_eq_of_mem_nodupKeys :
    ∀ {l : List RecommendationResult}, nodupKeys l →
      ∀ {e : RecommendationResult}, e ∈ l → ∀ {p : Nat}, keyP p e = true →
        l.find? (keyP p) = some e := by
  intro l
  induction l with
  | nil => intro _ e he; exact absurd he (by simp)
  | cons a t ih =>
    intro h e he p hp
    have h0 : (List.map (·.productId) (a :: t)).Nodup := h
    rw [List.map_cons, List.nodup_cons] at h0
    by_cases hap : keyP p a = true
    · rcases List.mem_cons.mp he with rfl | het
      · exact List.find?_cons_of_pos _ hap
      · exfalso
        have hpe : e.productId = p := by simpa [keyP] using hp
        have hpa : a.productId = p := by simpa [keyP] using hap
        refine h0.1 ?_
        rw [hpa, ← hpe]
        exact List.mem_map.mpr ⟨e, het, rfl⟩
    · rcases List.mem_cons.mp he with rfl | het
      · exact absurd hp hap
      · rw [List.find?_cons_of_neg _ hap]
        exact ih h0.2 het hp

theorem foldl_mergeInto_keys_subset :
    ∀ (l acc : List RecommendationResult) (q : Nat),
      q ∈ (l.foldl mergeInto acc).map (·.productId) →
        q ∈ acc.map (·.productId) ∨ q ∈ l.map (·.productId)
  | [], acc, q, h => Or.inl h
  | r :: l, acc, q, h => by
    rcases foldl_mergeInto_keys_subset l (mergeInto acc r) q h with h1 | h1
    · rw [mergeInto_map_productId] at h1
      by_cases hany : acc.any (keyP r.productId) = true
      · rw [if_pos hany] at h1
        exact Or.inl h1
      · rw [if_neg hany] at h1
        rcases List.mem_append.mp h1 with h2 | h2
        · exact Or.inl h2
        · rcases List.mem_singleton.mp h2 with rfl
          exact Or.inr (by simp)
    · exact Or.inr (List.mem_cons_of_mem _ h1)

theorem descBy_trans [LinearOrder β] (f : α → β) :
    ∀ a b c : α, decide (f b ≤ f a) = true → decide (f c ≤ f b) = true →
      decide (f c ≤ f a) = true := by
  intro a b c h1 h2
  rw [decide_eq_true_eq] at h1 h2 ⊢
  exact le_trans h2 h1

theorem descBy_total [LinearOrder β] (f : α → β) :
    ∀ a b : α, decide (f b ≤ f a) = true ∨ decide (f a ≤ f b) = true := by
  intro a b
  rcases le_total (f b) (f a) with h | h
  · exact Or.inl (decide_eq_true h)
  · exact Or.inr (decide_eq_true h)

/-- C4: `trackBehavior` never raises to its caller: for every world,
including one where the store id resolves to no tenant, and even when the
storage insert fails, it returns successfully (the error is only logged
inside the catch block). -/
theorem trackBehavior_never_raises (now : Int) (w : World) (insertFails : Bool)
    (d : TrackBehaviorData) : ∃ w', trackBehavior now w insertFails d = Except.ok w' := by
  unfold trackBehavior trackBehaviorTry
  cases h : getStore w d.storeId
  · exact ⟨w, rfl⟩
  · cases insertFails
    · exact ⟨_, rfl⟩
    · exact ⟨w, rfl⟩

/-- C9: `trackRecommendationFeedback` with `action = clicked` and no
customer id sets `clicked := true` and a non-null `clickedAt` on every
recommendation row matching the (sessionId, productId) pair, leaves all
other fields of those rows and all non-matching rows unchanged, and is a
silent no-op (the world is unchanged) when no row matches. -/
theorem trackRecommendationFeedback_clicked (now : Int) (w : World) (d : FeedbackData)
    (st : StoreRecord) (hst : getStore w d.storeId = some st)
    (hact : d.action = .clicked) (hcid : d.customerId = none) :
    ∃ w', trackRecommendationFeedback now w d = Except.ok w' ∧
      List.Forall₂
        (fun r r' : RecRow =>
          (r.sessionId = d.sessionId ∧ r.productId = d.productId →
            r'.clicked = true ∧ r'.clickedAt = some now ∧
            r'.shown = r.shown ∧ r'.shownAt = r.shownAt ∧
            r'.purchased = r.purchased ∧ r'.purchasedAt = r.purchasedAt ∧
            r'.customerId = r.customerId ∧ r'.sessionId = r.sessionId ∧
            r'.productId = r.productId ∧ r'.recommendationType = r.recommendationType ∧
            r'.score = r.score ∧ r'.reasons = r.reasons ∧ r'.createdAt = r.createdAt) ∧
          (¬(r.sessionId = d.sessionId ∧ r.productId = d.productId) → r' = r))
        (w.dbs st.databaseUrl).recRows ((updateDbAt w st.databaseUrl
          (fun db => { db with recRows := db.recRows.map (applyFeedback now d) })).dbs
            st.databaseUrl).recRows ∧
      ((∀ r ∈ (w.dbs st.databaseUrl).recRows,
          ¬(r.sessionId = d.sessionId ∧ r.productId = d.productId)) → ∃ wsame,
        trackRecommendationFeedback now w d = Except.ok wsame ∧ wsame = w) := by
  have hmatch : ∀ r : RecRow,
      feedbackMatches d r =
        (decide (r.sessionId = d.sessionId) && decide (r.productId = d.productId)) := by
    intro r
    unfold feedbackMatches
    rw [hcid]
    rfl
  refine ⟨updateDbAt w st.databaseUrl
    (fun db => { db with recRows := db.recRows.map (applyFeedback now d) }), ?_, ?_, ?_⟩
  · unfold trackRecommendationFeedback
    rw [hst]
  · have hurl : (updateDbAt w st.databaseUrl
        (fun db => { db with recRows := db.recRows.map (applyFeedback now d) })).dbs
          st.databaseUrl =
        { w.dbs st.databaseUrl with
          recRows := (w.dbs st.databaseUrl).recRows.map (applyFeedback now d) } := by
      unfold updateDbAt
      simp
    rw [hurl]
    show List.Forall₂ _ (w.dbs st.databaseUrl).recRows
      ((w.dbs st.databaseUrl).recRows.map (applyFeedback now d))
    rw [List.forall₂_map_right_iff, List.forall₂_same]
    intro r _
    constructor
    · intro hm
      have hm' : feedbackMatches d r = true := by
        rw [hmatch]
        simp [hm.1, hm.2]
      unfold applyFeedback
      rw [hm', if_pos rfl, hact]
      exact ⟨rfl, rfl, rfl, rfl, rfl, rfl, rfl, rfl, rfl, rfl, rfl, rfl, rfl⟩
    · intro hm
      have hm' : feedbackMatches d r = false := by
        rw [hmatch]
        rcases not_and_or.mp hm with h | h <;> simp [h]
      unfold applyFeedback
      rw [hm']
      simp
  · intro hno
    refine ⟨_, by unfold trackRecommendationFeedback; rw [hst], ?_⟩
    have hid : (w.dbs st.databaseUrl).recRows.map (applyFeedback now d) =
        (w.dbs st.databaseUrl).recRows := by
      refine (List.map_congr_left ?_).trans (List.map_id _)
      intro r hr
      have hm' : feedbackMatches d r = false := by
        rw [hmatch]
        rcases not_and_or.mp (hno r hr) with h | h <;> simp [h]
      unfold applyFeedback
      rw [hm']
      simp
    have hdbs : (updateDbAt w st.databaseUrl
        (fun db => { db with recRows := db.recRows.map (applyFeedback now d) })).dbs = w.dbs := by
      funext u
      unfold updateDbAt
      by_cases hu : u = st.databaseUrl
      · subst hu
        simp [hid]
      · simp [hu]
    show updateDbAt w st.databaseUrl _ = w
    unfold updateDbAt
    conv_rhs => rw [show w = ⟨w.stores, w.dbs⟩ from rfl]
    congr 1

def c9Row : RecRow :=
  ⟨none, "s", 7, "trending", 1 / 2, ["Trending this week"], false, false, false,
    none, none, none, 0⟩

def c9World : World :=
  ⟨[⟨1, "main"⟩], fun _ => { emptyStoreDb with recRows := [c9Row] }⟩

def c9Data : FeedbackData := ⟨1, none, "s", 7, .clicked⟩

theorem trackRecommendationFeedback_clicked_witness :
    ∃ w', trackRecommendationFeedback 50 c9World c9Data = Except.ok w' := by
  obtain ⟨w', h1, _, _⟩ :=
    trackRecommendationFeedback_clicked 50 c9World c9Data ⟨1, "main"⟩ rfl rfl rfl
  exact ⟨w', h1⟩

/-- C10: every recently-viewed result list has score
`max (0.9 - 0.1 * rank) 0.1` at each rank, hence non-increasing scores that
start at `0.9` and never drop below the `0.1` floor, and the underlying
group list is ordered descending by each product's most recent view
timestamp within the 30-day window. -/
theorem recentlyViewed_scores_and_order (now : Int) (db : StoreDb)
    (req : RecommendationRequest) :
    (∀ i (h : i < (generateRecentlyViewedRecommendations now db req).length),
      ((generateRecentlyViewedRecommendations now db req).get ⟨i, h⟩).score =
        max ((9 : Rat) / 10 - (i : Rat) * (1 / 10)) (1 / 10) ∧
      1 / 10 ≤ ((generateRecentlyViewedRecommendations now db req).get ⟨i, h⟩).score) ∧
    (∀ i j (hi : i < (generateRecentlyViewedRecommendations now db req).length)
        (hj : j < (generateRecentlyViewedRecommendations now db req).length), i ≤ j →
      ((generateRecentlyViewedRecommendations now db req).get ⟨j, hj⟩).score ≤
        ((generateRecentlyViewedRecommendations now db req).get ⟨i, hi⟩).score) ∧
    (∀ h : 0 < (generateRecentlyViewedRecommendations now db req).length,
      ((generateRecentlyViewedRecommendations now db req).get ⟨0, h⟩).score = 9 / 10) ∧
    List.Pairwise (fun a b : Nat × Int => b.2 ≤ a.2) (recentlyViewedGroups now db req) ∧
    (generateRecentlyViewedRecommendations now db req).map (·.productId) =
      (recentlyViewedGroups now db req).map Prod.fst ∧
    ∀ g ∈ recentlyViewedGroups now db req,
      g.2 = listMax (((recentlyViewedRows now db req).filter
        (fun v => decide (v.productId = g.1))).map (·.timestamp)) := by
  have hscore : ∀ i (h : i < (generateRecentlyViewedRecommendations now db req).length),
      ((generateRecentlyViewedRecommendations now db req).get ⟨i, h⟩).score =
        max ((9 : Rat) / 10 - (i : Rat) * (1 / 10)) (1 / 10) := by
    intro i h
    unfold generateRecentlyViewedRecommendations at h ⊢
    rw [List.get_eq_getElem, List.getElem_map, List.getElem_enum]
  refine ⟨fun i h => ⟨hscore i h, ?_⟩, ?_, ?_, ?_, ?_, ?_⟩
  · rw [hscore i h]
    exact le_max_right _ _
  · intro i j hi hj hij
    rw [hscore i hi, hscore j hj]
    refine max_le_max (sub_le_sub_left ?_ _) le_rfl
    refine mul_le_mul_of_nonneg_right ?_ (by norm_num)
    exact_mod_cast hij
  · intro h
    rw [hscore 0 h]
    rw [show ((0 : Nat) : Rat) * (1 / 10) = 0 by norm_num, sub_zero]
    exact max_eq_left (by norm_num)
  · have hp : List.Pairwise (fun x y : Nat × Int => decide (y.2 ≤ x.2) = true)
        (recentlyViewedGroups now db req) := by
      unfold recentlyViewedGroups
      exact List.Pairwise.sublist (List.take_sublist _ _)
        (pairwise_sortByB (descBy_trans Prod.snd) (descBy_total Prod.snd) _)
    exact hp.imp (fun h => decide_eq_true_eq.mp h)
  · unfold generateRecentlyViewedRecommendations
    rw [List.map_map]
    show (recentlyViewedGroups now db req).enum.map
      ((fun g : Nat × Int => g.1) ∘ Prod.snd) = _
    rw [← List.map_map, List.enum_map_snd]
  · intro g hg
    have h1 : g ∈ groupAgg (·.productId) (fun l => listMax (l.map (·.timestamp)))
        (recentlyViewedRows now db req) := by
      have h2 := (List.take_sublist _ _).mem hg
      exact mem_sortByB.mp h2
    exact (mem_groupAgg.mp h1).2

def c10Db : StoreDb := ⟨[], [⟨none, "s", 4, 0, 10⟩], [], []⟩

def c10Req : RecommendationRequest := ⟨1, none, "s", none, [], some .recentlyViewed⟩

theorem recentlyViewed_scores_witness :
    ∃ h : 0 < (generateRecentlyViewedRecommendations 20 c10Db c10Req).length,
      ((generateRecentlyViewedRecommendations 20 c10Db c10Req).get ⟨0, h⟩).score = 9 / 10 := by
  have h : 0 < (generateRecentlyViewedRecommendations 20 c10Db c10Req).length := by decide
  exact ⟨h, (recentlyViewed_scores_and_order 20 c10Db c10Req).2.2.1 h⟩

theorem not_mem_of_optNotInList {p : Nat} {l : List Nat}
    (h : optNotInList (some p) l = true) : p ∉ l := by
  simpa [optNotInList] using h

theorem isEmpty_false_of_ne_nil {l : List Nat} (h : l ≠ []) : l.isEmpty = false := by
  cases l with
  | nil => exact absurd rfl h
  | cons a t => rfl

/-- A product returned by collaborative filtering is never an excluded one. -/
theorem collab_excludes (db : StoreDb) (req : RecommendationRequest)
    (hex : req.excludeProductIds ≠ []) :
    ∀ r ∈ generateCollaborativeRecommendations db req,
      r.productId ∉ req.excludeProductIds := by
  intro r hr
  unfold generateCollaborativeRecommendations at hr
  by_cases h1 : (!truthy req.customerId) = true
  · rw [if_pos h1] at hr
    exact absurd hr (by simp)
  · rw [if_neg h1] at hr
    by_cases h2 : (collabSimilarCustomers db (req.customerId.getD 0)).isEmpty = true
    · rw [if_pos h2] at hr
      exact absurd hr (by simp)
    · rw [if_neg h2] at hr
      rcases List.mem_map.mp hr with ⟨g, hg, rfl⟩
      have hgf := List.mem_filter.mp hg
      have htr : truthy g.1 = true := hgf.2
      obtain ⟨m, hm⟩ : ∃ m, g.1 = some m := by
        cases hgm : g.1 with
        | none => rw [hgm] at htr; exact absurd htr (by simp [truthy])
        | some m => exact ⟨m, rfl⟩
      have hmem : g ∈ groupCount (·.productId)
          (collabCandidateRows db req (req.customerId.getD 0)
            (collabSimilarCustomerIds db (req.customerId.getD 0))) := by
        have h3 := (List.take_sublist _ _).mem hgf.1
        exact mem_sortByB.mp h3
      have hkey := (mem_groupCount.mp hmem).1
      rcases List.mem_map.mp hkey with ⟨e, he, hpe⟩
      have hfe := (List.mem_filter.mp he).2
      rw [isEmpty_false_of_ne_nil hex] at hfe
      simp only [Bool.and_eq_true, Bool.false_or] at hfe
      have hni := hfe.2
      rw [hpe, hm] at hni
      show (g.1.getD 0) ∉ req.excludeProductIds
      rw [hm]
      exact not_mem_of_optNotInList hni

/-- A product returned by the content-based strategy is never excluded. -/
theorem content_excludes (db : StoreDb) (req : RecommendationRequest)
    (hex : req.excludeProductIds ≠ []) :
    ∀ r ∈ generateContentBasedRecommendations db req,
      r.productId ∉ req.excludeProductIds := by
  intro r hr
  unfold generateContentBasedRecommendations at hr
  by_cases h1 : (contentViewedRows db req).isEmpty = true
  · rw [if_pos h1] at hr
    exact absurd hr (by simp)
  · rw [if_neg h1] at hr
    by_cases h2 : (contentCategoryGroups db req).isEmpty = true
    · rw [if_pos h2] at hr
      exact absurd hr (by simp)
    · rw [if_neg h2] at hr
      rcases List.mem_map.mp hr with ⟨g, hg, rfl⟩
      have hmem : g ∈ groupCount (·.productId) (contentCandidateRows db req) := by
        have h3 := (List.take_sublist _ _).mem hg
        exact mem_sortByB.mp h3
      have hkey := (mem_groupCount.mp hmem).1
      rcases List.mem_map.mp hkey with ⟨m, hmrow, hpm⟩
      have hfm := (List.mem_filter.mp hmrow).2
      rw [isEmpty_false_of_ne_nil hex] at hfm
      simp only [Bool.and_eq_true, Bool.false_or] at hfm
      have hni := hfm.2
      show g.1 ∉ req.excludeProductIds
      rw [← hpm]
      simpa using hni

/-- A product returned by the trending strategy is never excluded. -/
theorem trending_excludes (now : Int) (db : StoreDb) (req : RecommendationRequest)
    (hex : req.excludeProductIds ≠ []) :
    ∀ r ∈ generateTrendingRecommendations now db req,
      r.productId ∉ req.excludeProductIds := by
  intro r hr
  unfold generateTrendingRecommendations at hr
  rcases List.mem_map.mp hr with ⟨g, hg, rfl⟩
  have hgf := List.mem_filter.mp hg
  have htr : truthy g.1 = true := hgf.2
  obtain ⟨m, hm⟩ : ∃ m, g.1 = some m := by
    cases hgm : g.1 with
    | none => rw [hgm] at htr; exact absurd htr (by simp [truthy])
    | some m => exact ⟨m, rfl⟩
  have hmem : g ∈ groupAgg (·.productId)
      (fun l => (l.length, (l.map (fun e => actionWeight e.action)).sum))
      (trendingWindowRows now db req) := by
    have h3 := (List.take_sublist _ _).mem hgf.1
    have h4 := mem_sortByB.mp h3
    exact (List.filter_sublist _).mem h4
  have hkey := (mem_groupAgg.mp hmem).1
  rcases List.mem_map.mp hkey with ⟨e, he, hpe⟩
  have hfe := (List.mem_filter.mp he).2
  rw [isEmpty_false_of_ne_nil hex] at hfe
  simp only [Bool.and_eq_true, Bool.false_or] at hfe
  have hni := hfe.2
  rw [hpe, hm] at hni
  show (g.1.getD 0) ∉ req.excludeProductIds
  rw [hm]
  exact not_mem_of_optNotInList hni

/-- A product returned by the recently-viewed strategy is never excluded. -/
theorem recentlyViewed_excludes (now : Int) (db : StoreDb) (req : RecommendationRequest)
    (hex : req.excludeProductIds ≠ []) :
    ∀ r ∈ generateRecentlyViewedRecommendations now db req,
      r.productId ∉ req.excludeProductIds := by
  intro r hr
  unfold generateRecentlyViewedRecommendations at hr
  rcases List.mem_map.mp hr with ⟨p, hp, rfl⟩
  have hsnd : p.2 ∈ recentlyViewedGroups now db req := by
    have := List.mem_map_of_mem Prod.snd hp
    rwa [List.enum_map_snd] at this
  have hmem : p.2 ∈ groupAgg (·.productId) (fun l => listMax (l.map (·.timestamp)))
      (recentlyViewedRows now db req) := by
    have h3 := (List.take_sublist _ _).mem hsnd
    exact mem_sortByB.mp h3
  have hkey := (mem_groupAgg.mp hmem).1
  rcases List.mem_map.mp hkey with ⟨v, hv, hpv⟩
  have hfv := (List.mem_filter.mp hv).2
  rw [isEmpty_false_of_ne_nil hex] at hfv
  simp only [Bool.and_eq_true, Bool.false_or] at hfv
  have hni := hfv.2
  show p.2.1 ∉ req.excludeProductIds
  rw [← hpv]
  simpa using hni

/-- A product in the hybrid merge is contributed by one of the four
strategies run with the same exclusion list. -/
theorem hybridMerged_excludes (now : Int) (db : StoreDb) (req : RecommendationRequest)
    (hex : req.excludeProductIds ≠ []) :
    ∀ r ∈ hybridMerged now db req, r.productId ∉ req.excludeProductIds := by
  intro r hr
  have hkey : r.productId ∈ (hybridMerged now db req).map (·.productId) :=
    List.mem_map_of_mem _ hr
  rcases foldl_mergeInto_keys_subset (hybridWeighted now db req) [] r.productId hkey with
    h | h
  · exact absurd h (by simp)
  · unfold hybridWeighted at h
    simp only [List.map_append, List.mem_append] at h
    rcases h with ((h | h) | h) | h
    · unfold hybridCollabW at h
      rw [List.map_map] at h
      rcases List.mem_map.mp h with ⟨r', hr', hpr⟩
      have := collab_excludes db
        { req with limit := some (ceilTenths (req.limit.getD 10) 3) } hex r' hr'
      rwa [show r'.productId = r.productId from hpr] at this
    · unfold hybridContentW at h
      rw [List.map_map] at h
      rcases List.mem_map.mp h with ⟨r', hr', hpr⟩
      have := content_excludes db
        { req with limit := some (ceilTenths (req.limit.getD 10) 3) } hex r' hr'
      rwa [show r'.productId = r.productId from hpr] at this
    · unfold hybridTrendingW at h
      rw [List.map_map] at h
      rcases List.mem_map.mp h with ⟨r', hr', hpr⟩
      have := trending_excludes now db
        { req with limit := some (ceilTenths (req.limit.getD 10) 2) } hex r' hr'
      rwa [show r'.productId = r.productId from hpr] at this
    · unfold hybridRecentW at h
      rw [List.map_map] at h
      rcases List.mem_map.mp h with ⟨r', hr', hpr⟩
      have := recentlyViewed_excludes now db
        { req with limit := some (ceilTenths (req.limit.getD 10) 2) } hex r' hr'
      rwa [show r'.productId = r.productId from hpr] at this

theorem hybrid_excludes (now : Int) (db : StoreDb) (req : RecommendationRequest)
    (hex : req.excludeProductIds ≠ []) :
    ∀ r ∈ generateHybridRecommendations now db req,
      r.productId ∉ req.excludeProductIds := by
  intro r hr
  unfold generateHybridRecommendations at hr
  have h1 := (List.take_sublist _ _).mem hr
  exact hybridMerged_excludes now db req hex r (mem_sortByB.mp h1)

/-- C3: for every recommendation request of any type with a non-empty
`excludeProductIds` list, no excluded product id is ever returned. -/
theorem excluded_products_never_returned (now : Int) (db : StoreDb)
    (req : RecommendationRequest) (hex : req.excludeProductIds ≠ []) :
    ∀ r ∈ generateRecommendations now db req,
      r.productId ∉ req.excludeProductIds := by
  intro r hr
  unfold generateRecommendations at hr
  cases htype : req.rtype.getD .hybrid <;> rw [htype] at hr
  · exact collab_excludes db req hex r hr
  · exact content_excludes db req hex r hr
  · exact trending_excludes now db req hex r hr
  · exact recentlyViewed_excludes now db req hex r hr
  · exact hybrid_excludes now db req hex r hr

/-- Every behavior row of the trending window is a view or a purchase, so
its weight is at least one. -/
theorem trendingWindowRows_weight_ge_one (now : Int) (db : StoreDb)
    (req : RecommendationRequest) :
    ∀ e ∈ trendingWindowRows now db req, 1 ≤ actionWeight e.action := by
  intro e he
  have h := (List.mem_filter.mp he).2
  simp only [Bool.and_eq_true, Bool.or_eq_true, decide_eq_true_eq] at h
  rcases h.1.2 with hv | hp
  · rw [hv]; exact le_refl 1
  · rw [hp]; exact by norm_num [actionWeight]

/-- Facts about a group of the trending query. -/
theorem trendingGroup_spec {now : Int} {db : StoreDb} {req : RecommendationRequest}
    {g : Option Nat × (Nat × Nat)} (hg : g ∈ trendingProductGroups now db req) :
    2 < g.2.1 ∧
    g.2.1 = ((trendingWindowRows now db req).filter
      (fun e => decide (e.productId = g.1))).length ∧
    g.2.2 = (((trendingWindowRows now db req).filter
      (fun e => decide (e.productId = g.1))).map (fun e => actionWeight e.action)).sum := by
  have h1 : g ∈ (groupAgg (·.productId)
      (fun l => (l.length, (l.map (fun e => actionWeight e.action)).sum))
      (trendingWindowRows now db req)).filter (fun g => 2 < g.2.1) := by
    have h2 := (List.take_sublist _ _).mem hg
    exact mem_sortByB.mp h2
  have h3 := List.mem_filter.mp h1
  have h4 := (mem_groupAgg.mp h3.1).2
  refine ⟨by simpa using h3.2, ?_, ?_⟩
  · rw [show g.2.1 = (Prod.fst g.2) from rfl, h4]
  · rw [show g.2.2 = (Prod.snd g.2) from rfl, h4]

/-- The weighted total of any trending group is at least three, hence
nonzero. -/
theorem trendingGroup_total_pos {now : Int} {db : StoreDb} {req : RecommendationRequest}
    {g : Option Nat × (Nat × Nat)} (hg : g ∈ trendingProductGroups now db req) :
    0 < g.2.2 := by
  obtain ⟨hcnt, hlen, hsum⟩ := trendingGroup_spec hg
  have hone : ∀ x ∈ ((trendingWindowRows now db req).filter
      (fun e => decide (e.productId = g.1))).map (fun e => actionWeight e.action), 1 ≤ x := by
    intro x hx
    rcases List.mem_map.mp hx with ⟨e, he, rfl⟩
    exact trendingWindowRows_weight_ge_one now db req e (List.mem_of_mem_filter he)
  have hlen2 := List.length_le_sum_of_one_le _ hone
  rw [List.length_map] at hlen2
  rw [hsum]
  calc 0 < g.2.1 := lt_trans (by norm_num) hcnt
    _ = _ := hlen
    _ ≤ _ := hlen2

/-- The head group of the trending ranking dominates every group's total. -/
theorem trendingGroup_le_max {now : Int} {db : StoreDb} {req : RecommendationRequest}
    {g : Option Nat × (Nat × Nat)} (hg : g ∈ trendingProductGroups now db req) :
    (g.2.2 : Rat) ≤ trendingMaxScore now db req := by
  have hne : trendingProductGroups now db req ≠ [] := by
    intro h
    rw [h] at hg
    exact absurd hg (by simp)
  obtain ⟨h0, t, heq⟩ := List.exists_cons_of_ne_nil hne
  have hdom : decide (g.2.2 ≤ h0.2.2) = true := by
    have hsorted : (trendingProductGroups now db req).Pairwise
        (fun x y => decide (y.2.2 ≤ x.2.2) = true) := by
      unfold trendingProductGroups
      exact List.Pairwise.sublist (List.take_sublist _ _)
        (pairwise_sortByB
          (descBy_trans (fun x : Option Nat × (Nat × Nat) => x.2.2))
          (descBy_total (fun x : Option Nat × (Nat × Nat) => x.2.2)) _)
    rw [heq] at hsorted hg
    exact sorted_head_dominates
      (descBy_total (fun x : Option Nat × (Nat × Nat) => x.2.2)) hsorted g hg
  have hle : g.2.2 ≤ h0.2.2 := decide_eq_true_eq.mp hdom
  unfold trendingMaxScore
  rw [heq]
  show (g.2.2 : Rat) ≤ if h0.2.2 = 0 then 1 else (h0.2.2 : Rat)
  by_cases h0z : h0.2.2 = 0
  · rw [if_pos h0z]
    have : g.2.2 = 0 := Nat.le_zero.mp (h0z ▸ hle)
    rw [this]
    norm_num
  · rw [if_neg h0z]
    exact_mod_cast hle

/-- C8 (amended): every trending result has more than two qualifying
events in the 7-day window and score equal to its weighted total divided
by the maximum observed group total; when every qualifying event carries a
(non-null, non-zero) product id, the top-ranked item's score is exactly 1.
(The unamended claim fails: a group of events with NULL product id can
hold the maximum total yet be dropped from the output, deflating the
top score; see the counterexample.) -/
theorem trending_scores (now : Int) (db : StoreDb) (req : RecommendationRequest) :
    (∀ r ∈ generateTrendingRecommendations now db req,
      2 < (trendingWindowRows now db req).countP
        (fun e => decide (e.productId = some r.productId)) ∧
      r.score = ((((trendingWindowRows now db req).filter
        (fun e => decide (e.productId = some r.productId))).map
          (fun e => actionWeight e.action)).sum : Rat) / trendingMaxScore now db req) ∧
    (∀ g ∈ trendingProductGroups now db req,
      (g.2.2 : Rat) ≤ trendingMaxScore now db req) ∧
    ((∀ e ∈ trendingWindowRows now db req, truthy e.productId = true) →
      ∀ h : generateTrendingRecommendations now db req ≠ [],
        ((generateTrendingRecommendations now db req).head h).score = 1) := by
  refine ⟨?_, fun g hg => trendingGroup_le_max hg, ?_⟩
  · intro r hr
    unfold generateTrendingRecommendations at hr
    rcases List.mem_map.mp hr with ⟨g, hgf, rfl⟩
    have hgm := List.mem_filter.mp hgf
    have htr : truthy g.1 = true := hgm.2
    obtain ⟨m, hm⟩ : ∃ m, g.1 = some m := by
      cases hgm2 : g.1 with
      | none => rw [hgm2] at htr; exact absurd htr (by simp [truthy])
      | some m => exact ⟨m, rfl⟩
    obtain ⟨hcnt, hlen, hsum⟩ := trendingGroup_spec hgm.1
    have hkey : (some (g.1.getD 0) : Option Nat) = g.1 := by rw [hm]; rfl
    constructor
    · rw [List.countP_eq_length_filter]
      show 2 < (List.filter
        (fun e : BehaviorEvent => decide (e.productId = some (g.1.getD 0)))
        (trendingWindowRows now db req)).length
      rw [hkey, ← hlen]
      exact hcnt
    · show ((g.2.2 : Nat) : Rat) / trendingMaxScore now db req = _
      rw [hkey, ← hsum]
  · intro hall h
    have hid : (trendingProductGroups now db req).filter (fun g => truthy g.1) =
        trendingProductGroups now db req := by
      rw [List.filter_eq_self]
      intro g hg
      have hkey := (mem_groupAgg.mp (List.mem_filter.mp (mem_sortByB.mp
        ((List.take_sublist _ _).mem hg))).1).1
      rcases List.mem_map.mp hkey with ⟨e, he, hpe⟩
      rw [← hpe]
      exact hall e he
    have hne : trendingProductGroups now db req ≠ [] := by
      intro hnil
      refine h ?_
      unfold generateTrendingRecommendations
      rw [hid, hnil]
      rfl
    obtain ⟨h0, t, heq⟩ := List.exists_cons_of_ne_nil hne
    have hout : generateTrendingRecommendations now db req =
        (h0 :: t).map (fun g =>
          ({ productId := g.1.getD 0
             score := (g.2.2 : Rat) / trendingMaxScore now db req
             rtype := "trending"
             reasons := ["Trending this week"] } : RecommendationResult)) := by
      unfold generateTrendingRecommendations
      rw [hid, heq]
    have hpos : 0 < h0.2.2 := trendingGroup_total_pos (heq ▸ List.mem_cons_self h0 t)
    have hmax : trendingMaxScore now db req = (h0.2.2 : Rat) := by
      unfold trendingMaxScore
      rw [heq]
      show (if h0.2.2 = 0 then (1 : Rat) else (h0.2.2 : Rat)) = _
      rw [if_neg (Nat.pos_iff_ne_zero.mp hpos)]
    have hscore : ((generateTrendingRecommendations now db req).head h).score =
        (h0.2.2 : Rat) / trendingMaxScore now db req := by
      have hh : (generateTrendingRecommendations now db req).head h =
          ({ productId := h0.1.getD 0
             score := (h0.2.2 : Rat) / trendingMaxScore now db req
             rtype := "trending"
             reasons := ["Trending this week"] } : RecommendationResult) := by
        have h2 : generateTrendingRecommendations now db req ≠ [] := h
        rw [← Option.some_inj, ← List.head?_eq_head h2, hout]
        rfl
      rw [hh]
    rw [hscore, hmax]
    refine div_self ?_
    exact_mod_cast Nat.pos_iff_ne_zero.mp hpos

def c8ev (p : Option Nat) (t : Int) : BehaviorEvent :=
  ⟨none, "s", .view, p, none, "desktop", "direct", t⟩

def c8Db : StoreDb :=
  ⟨[c8ev none 10, c8ev none 11, c8ev none 12, c8ev none 13,
    c8ev (some 7) 14, c8ev (some 7) 15, c8ev (some 7) 16], [], [], []⟩

def c8Req : RecommendationRequest := ⟨1, none, "s", none, [], some .trending⟩

/-- C8 counterexample: four in-window view events with NULL product id form
a group with the maximum weighted total (4); product 7 has three events
(total 3). The NULL group is dropped by the truthiness filter, so the
result is non-empty but its top-ranked item scores 3/4, not 1. -/
theorem trending_top_score_counterexample :
    generateTrendingRecommendations 20 c8Db c8Req =
      [⟨7, 3 / 4, "trending", ["Trending this week"]⟩] ∧ ((3 : Rat) / 4) ≠ 1 := by
  have h1 : trendingProductGroups 20 c8Db c8Req = [(none, (4, 4)), (some 7, (3, 3))] := by
    decide
  have h2 : trendingMaxScore 20 c8Db c8Req = 4 := by
    unfold trendingMaxScore
    rw [h1]
    norm_num
  have h3 : generateTrendingRecommendations 20 c8Db c8Req =
      [⟨7, ((3 : Nat) : Rat) / trendingMaxScore 20 c8Db c8Req, "trending",
        ["Trending this week"]⟩] := by
    unfold generateTrendingRecommendations
    rw [h1]
    rfl
  constructor
  · rw [h3, h2]
    norm_num
  · norm_num

def c8wDb : StoreDb :=
  ⟨[c8ev (some 7) 14, c8ev (some 7) 15, c8ev (some 7) 16], [], [], []⟩

theorem trending_scores_witness :
    ∃ h : generateTrendingRecommendations 20 c8wDb c8Req ≠ [],
      ((generateTrendingRecommendations 20 c8wDb c8Req).head h).score = 1 ∧
      ((3 : Nat) : Rat) ≤ trendingMaxScore 20 c8wDb c8Req ∧
      2 < (trendingWindowRows 20 c8wDb c8Req).countP
        (fun e => decide (e.productId = some 7)) := by
  have hout : generateTrendingRecommendations 20 c8wDb c8Req =
      [⟨7, ((3 : Nat) : Rat) / trendingMaxScore 20 c8wDb c8Req, "trending",
        ["Trending this week"]⟩] := by
    have h1 : trendingProductGroups 20 c8wDb c8Req = [(some 7, (3, 3))] := by decide
    unfold generateTrendingRecommendations
    rw [h1]
    rfl
  have hne : generateTrendingRecommendations 20 c8wDb c8Req ≠ [] := by
    rw [hout]
    simp
  have hg : ((some 7 : Option Nat), ((3 : Nat), (3 : Nat))) ∈
      trendingProductGroups 20 c8wDb c8Req := by decide
  have hmem : (⟨7, ((3 : Nat) : Rat) / trendingMaxScore 20 c8wDb c8Req, "trending",
      ["Trending this week"]⟩ : RecommendationResult) ∈
      generateTrendingRecommendations 20 c8wDb c8Req := by
    rw [hout]
    exact List.mem_singleton.mpr rfl
  refine ⟨hne, ?_, ?_, ?_⟩
  · exact (trending_scores 20 c8wDb c8Req).2.2 (by decide) hne
  · exact (trending_scores 20 c8wDb c8Req).2.1 _ hg
  · exact ((trending_scores 20 c8wDb c8Req).1 _ hmem).1

/-- C7 (amended): each content-based result's score is
`min (c / k, 1)` where `k` is the number of selected top categories (at
most 3, fewer when fewer categories exist among the recent views — the
unamended claim's fixed divisor 3 fails, see the counterexample) and `c`
is the number of category-mapping rows linking the product to a selected
top category; returned products are never among the (up to) five most
recently viewed products. -/
theorem content_scores (db : StoreDb) (req : RecommendationRequest) :
    (∀ r ∈ generateContentBasedRecommendations db req,
      r.score = min ((((contentCandidateRows db req).countP
          (fun m => decide (m.productId = r.productId)) : Nat) : Rat) /
        ((contentTopCategoryIds db req).length : Rat)) 1 ∧
      r.productId ∉ contentViewedIds db req ∧
      (contentCandidateRows db req).countP (fun m => decide (m.productId = r.productId)) =
        db.mappings.countP (fun m => decide (m.productId = r.productId) &&
          (contentTopCategoryIds db req).contains m.categoryId)) ∧
    (contentTopCategoryIds db req).length ≤ 3 := by
  constructor
  · intro r hr
    unfold generateContentBasedRecommendations at hr
    by_cases h1 : (contentViewedRows db req).isEmpty = true
    · rw [if_pos h1] at hr
      exact absurd hr (by simp)
    · rw [if_neg h1] at hr
      by_cases h2 : (contentCategoryGroups db req).isEmpty = true
      · rw [if_pos h2] at hr
        exact absurd hr (by simp)
      · rw [if_neg h2] at hr
        rcases List.mem_map.mp hr with ⟨g, hg, rfl⟩
        have hmem : g ∈ groupCount (·.productId) (contentCandidateRows db req) :=
          mem_sortByB.mp ((List.take_sublist _ _).mem hg)
        obtain ⟨hkey, hcnt⟩ := mem_groupCount.mp hmem
        rcases List.mem_map.mp hkey with ⟨m0, hm0, hpm0⟩
        have hf0 := (List.mem_filter.mp hm0).2
        simp only [Bool.and_eq_true] at hf0
        have hnv : (!(contentViewedIds db req).contains m0.productId) = true := hf0.1.2
        have hexc : (req.excludeProductIds.isEmpty ||
            !req.excludeProductIds.contains m0.productId) = true := hf0.2
        refine ⟨?_, ?_, ?_⟩
        · show min _ 1 = min _ 1
          rw [hcnt]
        · show g.1 ∉ contentViewedIds db req
          rw [← hpm0]
          simpa using hnv
        · show (contentCandidateRows db req).countP
              (fun m => decide (m.productId = g.1)) = _
          unfold contentCandidateRows
          rw [List.countP_filter]
          refine List.countP_congr ?_
          intro m _
          by_cases hq : m.productId = g.1
          · have hq' : decide (m.productId = g.1) = true := decide_eq_true hq
            have hmv : (!(contentViewedIds db req).contains m.productId) = true := by
              rw [show m.productId = m0.productId from hq.trans hpm0.symm]
              exact hnv
            have hme : (req.excludeProductIds.isEmpty ||
                !req.excludeProductIds.contains m.productId) = true := by
              rw [show m.productId = m0.productId from hq.trans hpm0.symm]
              exact hexc
            rw [hq', hmv, hme]
            cases (contentTopCategoryIds db req).contains m.categoryId <;> rfl
          · have hq' : decide (m.productId = g.1) = false := decide_eq_false hq
            rw [hq']
            rfl
  · show (((contentCategoryGroups db req).take 3).map (·.1)).length ≤ 3
    rw [List.length_map, List.length_take]
    exact min_le_left _ _

def c7Db : StoreDb := ⟨[], [⟨none, "s", 1, 0, 100⟩], [⟨1, 1⟩, ⟨2, 1⟩], []⟩

def c7Req : RecommendationRequest := ⟨1, none, "s", none, [], some .contentBased⟩

/-- C7 counterexample: the session has viewed only product 1, whose sole
category also holds product 2, so only one top category exists. Product 2
is returned with score `min (1/1, 1) = 1`, whereas the claim's fixed
divisor would give `min (1/3, 1) = 1/3`. -/
theorem content_score_counterexample :
    (generateContentBasedRecommendations c7Db c7Req).map (·.score) = [1] ∧
    c7Db.mappings.countP (fun m => decide (m.productId = 2) &&
      (contentTopCategoryIds c7Db c7Req).contains m.categoryId) = 1 ∧
    ¬ ((1 : Rat) = min ((1 : Rat) / 3) 1) := by
  have h3 : generateContentBasedRecommendations c7Db c7Req =
      [⟨2, min (((1 : Nat) : Rat) / ((1 : Nat) : Rat)) 1, "content_based",
        ["Similar to products you viewed"]⟩] := by rfl
  refine ⟨?_, by decide, by norm_num⟩
  rw [h3]
  norm_num

def c7wDb : StoreDb := ⟨[], [⟨none, "s", 1, 0, 100⟩], [⟨1, 1⟩, ⟨2, 1⟩], []⟩

def c7wReq : RecommendationRequest := ⟨1, none, "s", none, [], some .contentBased⟩

theorem content_scores_witness :
    ∃ r ∈ generateContentBasedRecommendations c7wDb c7wReq,
      r.score = min ((((contentCandidateRows c7wDb c7wReq).countP
          (fun m => decide (m.productId = r.productId)) : Nat) : Rat) /
        ((contentTopCategoryIds c7wDb c7wReq).length : Rat)) 1 ∧
      r.productId ∉ contentViewedIds c7wDb c7wReq := by
  have hmem : (⟨2, min (((1 : Nat) : Rat) / ((1 : Nat) : Rat)) 1, "content_based",
      ["Similar to products you viewed"]⟩ : RecommendationResult) ∈
      generateContentBasedRecommendations c7wDb c7wReq := by
    rw [show generateContentBasedRecommendations c7wDb c7wReq =
      [⟨2, min (((1 : Nat) : Rat) / ((1 : Nat) : Rat)) 1, "content_based",
        ["Similar to products you viewed"]⟩] from rfl]
    exact List.mem_singleton.mpr rfl
  obtain ⟨ha, hb, _⟩ := (content_scores c7wDb c7wReq).1 _ hmem
  exact ⟨_, hmem, ha, hb⟩

theorem nodup_getD_pids {β} {l : List (Option Nat × β)} (h : (l.map Prod.fst).Nodup)
    (htr : ∀ g ∈ l, truthy g.1 = true) :
    (l.map (fun g => g.1.getD 0)).Nodup := by
  have heq : l.map (fun g => g.1.getD 0) = (l.map Prod.fst).map (fun o => o.getD 0) := by
    rw [List.map_map]
    rfl
  rw [heq]
  refine h.map_on ?_
  intro x hx y hy hxy
  rcases List.mem_map.mp hx with ⟨gx, hgx, rfl⟩
  rcases List.mem_map.mp hy with ⟨gy, hgy, rfl⟩
  have h1 := htr gx hgx
  have h2 := htr gy hgy
  cases hx1 : gx.1 with
  | none => rw [hx1] at h1; exact absurd h1 (by simp [truthy])
  | some m =>
    cases hy1 : gy.1 with
    | none => rw [hy1] at h2; exact absurd h2 (by simp [truthy])
    | some mm =>
      rw [hx1, hy1] at hxy
      exact congrArg some (by simpa using hxy)

theorem sorted_take_fst_nodup {β} {groups : List (Option Nat × β)}
    (h0 : (groups.map Prod.fst).Nodup) (le : Option Nat × β → Option Nat × β → Bool)
    (n : Nat) : (((sortByB le groups).take n).map Prod.fst).Nodup := by
  have h1 : ((sortByB le groups).map Prod.fst).Nodup :=
    (((sortByB_perm le groups).map Prod.fst).nodup_iff).mpr h0
  exact ((List.take_sublist n _).map Prod.fst).nodup h1

theorem collab_pids_nodup (db : StoreDb) (req : RecommendationRequest) :
    ((generateCollaborativeRecommendations db req).map (·.productId)).Nodup := by
  unfold generateCollaborativeRecommendations
  by_cases h1 : (!truthy req.customerId) = true
  · rw [if_pos h1]
    simp
  · rw [if_neg h1]
    by_cases h2 : (collabSimilarCustomers db (req.customerId.getD 0)).isEmpty = true
    · rw [if_pos h2]
      simp
    · rw [if_neg h2]
      rw [List.map_map]
      show ((collabRankedProducts db req (req.customerId.getD 0)).filter
        (fun g => truthy g.1)).map (fun g => g.1.getD 0) |>.Nodup
      refine nodup_getD_pids ?_ ?_
      · exact ((List.filter_sublist _).map Prod.fst).nodup
          (sorted_take_fst_nodup (groupCount_keys_nodup _ _) _ _)
      · intro g hg
        exact (List.mem_filter.mp hg).2

theorem content_pids_nodup (db : StoreDb) (req : RecommendationRequest) :
    ((generateContentBasedRecommendations db req).map (·.productId)).Nodup := by
  unfold generateContentBasedRecommendations
  by_cases h1 : (contentViewedRows db req).isEmpty = true
  · rw [if_pos h1]
    simp
  · rw [if_neg h1]
    by_cases h2 : (contentCategoryGroups db req).isEmpty = true
    · rw [if_pos h2]
      simp
    · rw [if_neg h2]
      rw [List.map_map]
      show (contentRankedProducts db req).map Prod.fst |>.Nodup
      have h0 : ((groupCount (·.productId) (contentCandidateRows db req)).map
          Prod.fst).Nodup := groupCount_keys_nodup _ _
      have h3 : ((sortByB (fun a b => b.2 ≤ a.2)
          (groupCount (·.productId) (contentCandidateRows db req))).map Prod.fst).Nodup :=
        (((sortByB_perm _ _).map Prod.fst).nodup_iff).mpr h0
      exact ((List.take_sublist _ _).map Prod.fst).nodup h3

theorem trending_pids_nodup (now : Int) (db : StoreDb) (req : RecommendationRequest) :
    ((generateTrendingRecommendations now db req).map (·.productId)).Nodup := by
  unfold generateTrendingRecommendations
  rw [List.map_map]
  show ((trendingProductGroups now db req).filter (fun g => truthy g.1)).map
    (fun g => g.1.getD 0) |>.Nodup
  refine nodup_getD_pids ?_ ?_
  · have h0 : (((groupAgg (·.productId)
        (fun g => (g.length, (g.map (fun e => actionWeight e.action)).sum))
        (trendingWindowRows now db req)).filter (fun g => 2 < g.2.1)).map
          Prod.fst).Nodup :=
      ((List.filter_sublist _).map Prod.fst).nodup (groupAgg_keys_nodup _ _ _)
    exact ((List.filter_sublist _).map Prod.fst).nodup
      (sorted_take_fst_nodup h0 _ _)
  · intro g hg
    exact (List.mem_filter.mp hg).2

theorem recentlyViewed_pids_nodup (now : Int) (db : StoreDb) (req : RecommendationRequest) :
    ((generateRecentlyViewedRecommendations now db req).map (·.productId)).Nodup := by
  unfold generateRecentlyViewedRecommendations
  rw [List.map_map]
  show (recentlyViewedGroups now db req).enum.map
    ((fun g : Nat × Int => g.1) ∘ Prod.snd) |>.Nodup
  rw [← List.map_map, List.enum_map_snd]
  have h0 : ((groupAgg (·.productId) (fun g => listMax (g.map (·.timestamp)))
      (recentlyViewedRows now db req)).map Prod.fst).Nodup := groupAgg_keys_nodup _ _ _
  have h3 : ((sortByB (fun a b => b.2 ≤ a.2)
      (groupAgg (·.productId) (fun g => listMax (g.map (·.timestamp)))
        (recentlyViewedRows now db req))).map Prod.fst).Nodup :=
    (((sortByB_perm _ _).map Prod.fst).nodup_iff).mpr h0
  exact ((List.take_sublist _ _).map Prod.fst).nodup h3

theorem collab_score_le_one (db : StoreDb) (req : RecommendationRequest) :
    ∀ r ∈ generateCollaborativeRecommendations db req, r.score ≤ 1 := by
  intro r hr
  unfold generateCollaborativeRecommendations at hr
  by_cases h1 : (!truthy req.customerId) = true
  · rw [if_pos h1] at hr
    exact absurd hr (by simp)
  · rw [if_neg h1] at hr
    by_cases h2 : (collabSimilarCustomers db (req.customerId.getD 0)).isEmpty = true
    · rw [if_pos h2] at hr
      exact absurd hr (by simp)
    · rw [if_neg h2] at hr
      rcases List.mem_map.mp hr with ⟨g, _, rfl⟩
      exact min_le_right _ _

theorem content_score_le_one (db : StoreDb) (req : RecommendationRequest) :
    ∀ r ∈ generateContentBasedRecommendations db req, r.score ≤ 1 := by
  intro r hr
  unfold generateContentBasedRecommendations at hr
  by_cases h1 : (contentViewedRows db req).isEmpty = true
  · rw [if_pos h1] at hr
    exact absurd hr (by simp)
  · rw [if_neg h1] at hr
    by_cases h2 : (contentCategoryGroups db req).isEmpty = true
    · rw [if_pos h2] at hr
      exact absurd hr (by simp)
    · rw [if_neg h2] at hr
      rcases List.mem_map.mp hr with ⟨g, _, rfl⟩
      exact min_le_right _ _

theorem trendingMaxScore_pos (now : Int) (db : StoreDb) (req : RecommendationRequest) :
    0 < trendingMaxScore now db req := by
  unfold trendingMaxScore
  cases (trendingProductGroups now db req).head? with
  | none => norm_num
  | some h0 =>
    show (0 : Rat) < if h0.2.2 = 0 then 1 else (h0.2.2 : Rat)
    split
    · norm_num
    · rename_i hz
      exact_mod_cast Nat.pos_of_ne_zero hz

theorem trending_score_le_one (now : Int) (db : StoreDb) (req : RecommendationRequest) :
    ∀ r ∈ generateTrendingRecommendations now db req, r.score ≤ 1 := by
  intro r hr
  unfold generateTrendingRecommendations at hr
  rcases List.mem_map.mp hr with ⟨g, hg, rfl⟩
  have hg2 : g ∈ trendingProductGroups now db req := List.mem_of_mem_filter hg
  exact (div_le_one (trendingMaxScore_pos now db req)).mpr (trendingGroup_le_max hg2)

theorem recentlyViewed_score_le (now : Int) (db : StoreDb) (req : RecommendationRequest) :
    ∀ r ∈ generateRecentlyViewedRecommendations now db req, r.score ≤ 9 / 10 := by
  intro r hr
  unfold generateRecentlyViewedRecommendations at hr
  rcases List.mem_map.mp hr with ⟨p, _, rfl⟩
  show max ((9 : Rat) / 10 - (p.1 : Rat) * (1 / 10)) (1 / 10) ≤ 9 / 10
  refine max_le ?_ (by norm_num)
  refine sub_le_self _ ?_
  positivity

theorem weighted_pids (l : List RecommendationResult) (w : Rat) :
    (l.map (fun r => { r with score := r.score * w })).map (·.productId) =
      l.map (·.productId) := by
  rw [List.map_map]
  rfl

theorem hybridCollabW_pids_nodup (now : Int) (db : StoreDb) (req : RecommendationRequest) :
    nodupKeys (hybridCollabW now db req) := by
  unfold hybridCollabW nodupKeys
  rw [weighted_pids]
  exact collab_pids_nodup _ _

theorem hybridContentW_pids_nodup (now : Int) (db : StoreDb) (req : RecommendationRequest) :
    nodupKeys (hybridContentW now db req) := by
  unfold hybridContentW nodupKeys
  rw [weighted_pids]
  exact content_pids_nodup _ _

theorem hybridTrendingW_pids_nodup (now : Int) (db : StoreDb) (req : RecommendationRequest) :
    nodupKeys (hybridTrendingW now db req) := by
  unfold hybridTrendingW nodupKeys
  rw [weighted_pids]
  exact trending_pids_nodup _ _ _

theorem hybridRecentW_pids_nodup (now : Int) (db : StoreDb) (req : RecommendationRequest) :
    nodupKeys (hybridRecentW now db req) := by
  unfold hybridRecentW nodupKeys
  rw [weighted_pids]
  exact recentlyViewed_pids_nodup _ _ _

theorem hybridCollabW_score_le (now : Int) (db : StoreDb) (req : RecommendationRequest) :
    ∀ r ∈ hybridCollabW now db req, r.score ≤ 4 / 10 := by
  intro r hr
  rcases List.mem_map.mp hr with ⟨e, he, rfl⟩
  show e.score * (4 / 10) ≤ 4 / 10
  calc e.score * (4 / 10) ≤ 1 * (4 / 10) :=
        mul_le_mul_of_nonneg_right (collab_score_le_one db _ e he) (by norm_num)
    _ = 4 / 10 := one_mul _

theorem hybridContentW_score_le (now : Int) (db : StoreDb) (req : RecommendationRequest) :
    ∀ r ∈ hybridContentW now db req, r.score ≤ 3 / 10 := by
  intro r hr
  rcases List.mem_map.mp hr with ⟨e, he, rfl⟩
  show e.score * (3 / 10) ≤ 3 / 10
  calc e.score * (3 / 10) ≤ 1 * (3 / 10) :=
        mul_le_mul_of_nonneg_right (content_score_le_one db _ e he) (by norm_num)
    _ = 3 / 10 := one_mul _

theorem hybridTrendingW_score_le (now : Int) (db : StoreDb) (req : RecommendationRequest) :
    ∀ r ∈ hybridTrendingW now db req, r.score ≤ 2 / 10 := by
  intro r hr
  rcases List.mem_map.mp hr with ⟨e, he, rfl⟩
  show e.score * (2 / 10) ≤ 2 / 10
  calc e.score * (2 / 10) ≤ 1 * (2 / 10) :=
        mul_le_mul_of_nonneg_right (trending_score_le_one now db _ e he) (by norm_num)
    _ = 2 / 10 := one_mul _

theorem hybridRecentW_score_le (now : Int) (db : StoreDb) (req : RecommendationRequest) :
    ∀ r ∈ hybridRecentW now db req, r.score ≤ 9 / 100 := by
  intro r hr
  rcases List.mem_map.mp hr with ⟨e, he, rfl⟩
  show e.score * (1 / 10) ≤ 9 / 100
  calc e.score * (1 / 10) ≤ (9 / 10) * (1 / 10) :=
        mul_le_mul_of_nonneg_right (recentlyViewed_score_le now db _ e he) (by norm_num)
    _ ≤ 9 / 100 := by norm_num

theorem sum_le_of_len_le_one {l : List Rat} {b : Rat} (hb : 0 ≤ b) (hlen : l.length ≤ 1)
    (hel : ∀ x ∈ l, x ≤ b) : l.sum ≤ b := by
  match l, hlen with
  | [], _ => simpa using hb
  | [x], _ => simpa using hel x (by simp)

theorem filter_keyP_sum_le {l : List RecommendationResult} {b : Rat} (hb : 0 ≤ b)
    (hnd : nodupKeys l) (hel : ∀ r ∈ l, r.score ≤ b) (p : Nat) :
    ((l.filter (keyP p)).map (·.score)).sum ≤ b := by
  refine sum_le_of_len_le_one hb ?_ ?_
  · rw [List.length_map, ← List.countP_eq_length_filter]
    exact countP_le_one_of_nodupKeys hnd p
  · intro x hx
    rcases List.mem_map.mp hx with ⟨e, he, rfl⟩
    exact hel e (List.mem_of_mem_filter he)

/-- The weighted contributions for one product over the four strategies sum
to at most `0.4 + 0.3 + 0.2 + 0.09 = 0.99`. -/
theorem hybridWeighted_filter_sum_le (now : Int) (db : StoreDb)
    (req : RecommendationRequest) (p : Nat) :
    (((hybridWeighted now db req).filter (keyP p)).map (·.score)).sum ≤ 99 / 100 := by
  unfold hybridWeighted
  rw [List.filter_append, List.filter_append, List.filter_append,
    List.map_append, List.map_append, List.map_append,
    List.sum_append, List.sum_append, List.sum_append]
  have hA := filter_keyP_sum_le (by norm_num) (hybridCollabW_pids_nodup now db req)
    (hybridCollabW_score_le now db req) p
  have hB := filter_keyP_sum_le (by norm_num) (hybridContentW_pids_nodup now db req)
    (hybridContentW_score_le now db req) p
  have hC := filter_keyP_sum_le (by norm_num) (hybridTrendingW_pids_nodup now db req)
    (hybridTrendingW_score_le now db req) p
  have hD := filter_keyP_sum_le (by norm_num) (hybridRecentW_pids_nodup now db req)
    (hybridRecentW_score_le now db req) p
  linarith

/-- Each entry of the hybrid `productScores` map carries the sum of its
weighted contributions, the `"hybrid"` label, and (when at least two
strategies contribute) the first-occurrence deduplicated union of the
contributing reasons lists. -/
theorem hybridMerged_entry (now : Int) (db : StoreDb) (req : RecommendationRequest)
    {e : RecommendationResult} (he : e ∈ hybridMerged now db req) :
    e.score = (((hybridWeighted now db req).filter (keyP e.productId)).map (·.score)).sum ∧
    e.rtype = "hybrid" ∧
    (2 ≤ ((hybridWeighted now db req).filter (keyP e.productId)).length →
      e.reasons = dedupKF ((((hybridWeighted now db req).filter (keyP e.productId)).map
        (·.reasons)).flatten)) := by
  have hnd : nodupKeys (hybridMerged now db req) :=
    nodupKeys_foldl_mergeInto _ [] (by simp [nodupKeys])
  have hkey : keyP e.productId e = true := by simp [keyP]
  have hfind : (hybridMerged now db req).find? (keyP e.productId) = some e :=
    find?_eq_of_mem_nodupKeys hnd he hkey
  unfold hybridMerged at hfind
  rw [foldl_mergeInto_find? e.productId (hybridWeighted now db req) []
    (by simp [nodupKeys])] at hfind
  cases hctrb : (hybridWeighted now db req).filter (keyP e.productId) with
  | nil =>
    rw [hctrb] at hfind
    exact absurd hfind (by simp [combineAll])
  | cons r rs =>
    rw [hctrb, show ([] : List RecommendationResult).find? (keyP e.productId) = none
      from rfl, combineAll_none_cons] at hfind
    have heq : e = rs.foldl combineEntry { r with rtype := "hybrid" } :=
      (Option.some_inj.mp hfind).symm
    refine ⟨?_, ?_, ?_⟩
    · rw [heq, foldl_combineEntry_score]
      show r.score + _ = _
      rw [List.map_cons, List.sum_cons]
    · rw [heq]
      cases rs with
      | nil => rfl
      | cons r2 rs2 => exact foldl_combineEntry_rtype _ _ (by simp)
    · intro hlen
      cases rs with
      | nil => exact absurd hlen (by simp)
      | cons r2 rs2 =>
        rw [heq, foldl_combineEntry_reasons _ _ (by simp), List.map_cons,
          List.flatten_cons]
        rfl

theorem hybridMerged_score_le (now : Int) (db : StoreDb) (req : RecommendationRequest) :
    ∀ e ∈ hybridMerged now db req, e.score ≤ 99 / 100 := by
  intro e he
  rw [(hybridMerged_entry now db req he).1]
  exact hybridWeighted_filter_sum_le now db req e.productId

/-- C5 counterexample: no reachable hybrid recommendation ever has score
strictly greater than 1. The four weighted contributions are bounded by
0.4, 0.3, 0.2 and 0.09 respectively, so even a product recommended by all
four strategies sums to at most 0.99. -/
theorem hybrid_score_exceeds_one_impossible :
    ¬ ∃ (now : Int) (db : StoreDb) (req : RecommendationRequest)
      (r : RecommendationResult),
        r ∈ generateHybridRecommendations now db req ∧ 1 < r.score := by
  rintro ⟨now, db, req, r, hr, hgt⟩
  have h1 : r ∈ hybridMerged now db req := by
    unfold generateHybridRecommendations at hr
    exact mem_sortByB.mp ((List.take_sublist _ _).mem hr)
  have h2 := hybridMerged_score_le now db req r h1
  linarith

def c5ev (t : Int) : BehaviorEvent := ⟨none, "s", .view, some 5, none, "desktop", "direct", t⟩

def c5Db : StoreDb :=
  ⟨[c5ev 14, c5ev 15, c5ev 16], [⟨none, "s", 4, 0, 10⟩], [⟨4, 1⟩, ⟨5, 1⟩], []⟩

def c5Req : RecommendationRequest := ⟨1, none, "s", none, [], some .hybrid⟩

def c5TrendReq : RecommendationRequest := ⟨1, none, "s", some 2, [], some .hybrid⟩

theorem c5_ctrb :
    (hybridWeighted 20 c5Db c5Req).filter (keyP 5) =
      [⟨5, min (((1 : Nat) : Rat) / ((1 : Nat) : Rat)) 1 * (3 / 10), "content_based",
        ["Similar to products you viewed"]⟩,
       ⟨5, ((3 : Nat) : Rat) / trendingMaxScore 20 c5Db c5TrendReq * (2 / 10), "trending",
        ["Trending this week"]⟩] := rfl

theorem c5_max : trendingMaxScore 20 c5Db c5TrendReq = 3 := by
  have h1 : trendingProductGroups 20 c5Db c5TrendReq = [(some 5, (3, 3))] := by decide
  unfold trendingMaxScore
  rw [h1]
  norm_num

/-- C5 (amended): hybrid merged scores are plain sums of the weighted
per-strategy scores and are not renormalized after merging: a product
recommended by several strategies can score strictly above 0.4, the
largest possible single weighted contribution (0.5 in the concrete state
below); but every hybrid score is bounded by 0.99, so a merged score
strictly greater than 1.0 is impossible (see the counterexample). -/
theorem hybrid_scores_not_renormalized :
    (∀ (now : Int) (db : StoreDb) (req : RecommendationRequest),
      ∀ r ∈ generateHybridRecommendations now db req, r.score ≤ 99 / 100) ∧
    ∃ r ∈ generateHybridRecommendations 20 c5Db c5Req,
      2 ≤ ((hybridWeighted 20 c5Db c5Req).filter (keyP r.productId)).length ∧
      2 / 5 < r.score ∧
      r.score = (((hybridWeighted 20 c5Db c5Req).filter (keyP r.productId)).map
        (·.score)).sum := by
  constructor
  · intro now db req r hr
    have h1 : r ∈ hybridMerged now db req := by
      unfold generateHybridRecommendations at hr
      exact mem_sortByB.mp ((List.take_sublist _ _).mem hr)
    exact hybridMerged_score_le now db req r h1
  · have hfs : ((hybridMerged 20 c5Db c5Req).find? (keyP 5)).isSome = true := by decide
    obtain ⟨e, hfe⟩ := Option.isSome_iff_exists.mp hfs
    have he : e ∈ hybridMerged 20 c5Db c5Req := List.mem_of_find?_eq_some hfe
    have hpid : e.productId = 5 := by
      have := List.find?_some hfe
      simpa [keyP] using this
    have hsum := (hybridMerged_entry 20 c5Db c5Req he).1
    rw [hpid] at hsum
    have hval : e.score = 1 / 2 := by
      rw [hsum, c5_ctrb]
      simp only [List.map_cons, List.map_nil, List.sum_cons, List.sum_nil, c5_max]
      norm_num
    have hout : e ∈ generateHybridRecommendations 20 c5Db c5Req := by
      unfold generateHybridRecommendations
      have hlen : (sortByB (fun a b => b.score ≤ a.score)
          (hybridMerged 20 c5Db c5Req)).length ≤ 10 := by
        rw [(sortByB_perm _ _).length_eq]
        rw [show (hybridMerged 20 c5Db c5Req).length = 2 from by decide]
        norm_num
      show e ∈ List.take 10
        (sortByB (fun a b => b.score ≤ a.score) (hybridMerged 20 c5Db c5Req))
      rw [List.take_of_length_le hlen]
      exact mem_sortByB.mpr he
    refine ⟨e, hout, ?_, ?_, ?_⟩
    · rw [hpid, c5_ctrb]
      norm_num
    · rw [hval]
      norm_num
    · rw [hpid]
      exact hsum

theorem hybrid_scores_not_renormalized_witness :
    ∃ r ∈ generateHybridRecommendations 20 c5Db c5Req, r.score ≤ 99 / 100 := by
  obtain ⟨hall, r, hr, _, _, _⟩ := hybrid_scores_not_renormalized
  exact ⟨r, hr, hall 20 c5Db c5Req r hr⟩

theorem filter_keyP_length_indicator {l : List RecommendationResult} (h : nodupKeys l)
    (p : Nat) :
    (l.filter (keyP p)).length = if p ∈ l.map (·.productId) then 1 else 0 := by
  by_cases hp : p ∈ l.map (·.productId)
  · rw [if_pos hp]
    rcases List.mem_map.mp hp with ⟨e, he, hpe⟩
    have h1 : 0 < (l.filter (keyP p)).length := by
      refine List.length_pos.mpr (List.ne_nil_of_mem (List.mem_filter.mpr ⟨he, ?_⟩))
      simp [keyP, hpe]
    have h2 : (l.filter (keyP p)).length ≤ 1 := by
      rw [← List.countP_eq_length_filter]
      exact countP_le_one_of_nodupKeys h p
    omega
  · rw [if_neg hp, List.length_eq_zero, List.filter_eq_nil]
    intro a ha hk
    exact hp (List.mem_map.mpr ⟨a, ha, by simpa [keyP] using hk⟩)

/-- How many of the four weighted strategy outputs contain product `p`. -/
def strategiesContaining (now : Int) (db : StoreDb) (req : RecommendationRequest)
    (p : Nat) : Nat :=
  (if p ∈ (hybridCollabW now db req).map (·.productId) then 1 else 0) +
    (if p ∈ (hybridContentW now db req).map (·.productId) then 1 else 0) +
    (if p ∈ (hybridTrendingW now db req).map (·.productId) then 1 else 0) +
    (if p ∈ (hybridRecentW now db req).map (·.productId) then 1 else 0)

theorem hybridWeighted_filter_length (now : Int) (db : StoreDb)
    (req : RecommendationRequest) (p : Nat) :
    ((hybridWeighted now db req).filter (keyP p)).length =
      strategiesContaining now db req p := by
  unfold hybridWeighted strategiesContaining
  rw [List.filter_append, List.filter_append, List.filter_append,
    List.length_append, List.length_append, List.length_append,
    filter_keyP_length_indicator (hybridCollabW_pids_nodup now db req) p,
    filter_keyP_length_indicator (hybridContentW_pids_nodup now db req) p,
    filter_keyP_length_indicator (hybridTrendingW_pids_nodup now db req) p,
    filter_keyP_length_indicator (hybridRecentW_pids_nodup now db req) p]

/-- C1: a product contributed by at least two strategies appears exactly
once in the merged `productScores` map, with score the sum of its weighted
per-strategy scores, reasons the deduplicated union of the contributing
reasons lists, and type `"hybrid"`; the final output is sorted descending
by combined score, truncated to the requested limit, drawn from the merged
map, and contains the product at most once. -/
theorem hybrid_merge_spec (now : Int) (db : StoreDb) (req : RecommendationRequest)
    (p : Nat) (hp : 2 ≤ strategiesContaining now db req p) :
    (hybridMerged now db req).countP (keyP p) = 1 ∧
    (∀ e ∈ hybridMerged now db req, e.productId = p →
      e.score = (((hybridWeighted now db req).filter (keyP p)).map (·.score)).sum ∧
      e.rtype = "hybrid" ∧
      e.reasons = dedupKF ((((hybridWeighted now db req).filter (keyP p)).map
        (·.reasons)).flatten)) ∧
    List.Pairwise (fun a b : RecommendationResult => b.score ≤ a.score)
      (generateHybridRecommendations now db req) ∧
    (generateHybridRecommendations now db req).length ≤ req.limit.getD 10 ∧
    (∀ e ∈ generateHybridRecommendations now db req, e ∈ hybridMerged now db req) ∧
    (generateHybridRecommendations now db req).countP (keyP p) ≤ 1 := by
  have hndm : nodupKeys (hybridMerged now db req) :=
    nodupKeys_foldl_mergeInto _ [] (by simp [nodupKeys])
  have hctrb_len : 2 ≤ ((hybridWeighted now db req).filter (keyP p)).length := by
    rw [hybridWeighted_filter_length]
    exact hp
  have hone : (hybridMerged now db req).countP (keyP p) = 1 := by
    have hle : (hybridMerged now db req).countP (keyP p) ≤ 1 :=
      countP_le_one_of_nodupKeys hndm p
    have hge : 0 < (hybridMerged now db req).countP (keyP p) := by
      cases hctrb : (hybridWeighted now db req).filter (keyP p) with
      | nil => rw [hctrb] at hctrb_len; exact absurd hctrb_len (by simp)
      | cons r rs =>
        have hfind : (hybridMerged now db req).find? (keyP p) =
            some (rs.foldl combineEntry { r with rtype := "hybrid" }) := by
          unfold hybridMerged
          rw [foldl_mergeInto_find? p (hybridWeighted now db req) []
            (by simp [nodupKeys]), hctrb]
          exact combineAll_none_cons r rs
        refine List.countP_pos.mpr ⟨_, List.mem_of_find?_eq_some hfind, ?_⟩
        exact List.find?_some hfind
    omega
  refine ⟨hone, ?_, ?_, ?_, ?_, ?_⟩
  · intro e he hep
    have h1 := hybridMerged_entry now db req he
    rw [hep] at h1
    exact ⟨h1.1, h1.2.1, h1.2.2 hctrb_len⟩
  · have hp2 : (generateHybridRecommendations now db req).Pairwise
        (fun a b => decide (b.score ≤ a.score) = true) := by
      unfold generateHybridRecommendations
      exact List.Pairwise.sublist (List.take_sublist _ _)
        (pairwise_sortByB (descBy_trans (fun r : RecommendationResult => r.score))
          (descBy_total (fun r : RecommendationResult => r.score)) _)
    exact hp2.imp (fun h => decide_eq_true_eq.mp h)
  · unfold generateHybridRecommendations
    rw [List.length_take]
    exact min_le_left _ _
  · intro e he
    unfold generateHybridRecommendations at he
    exact mem_sortByB.mp ((List.take_sublist _ _).mem he)
  · calc (generateHybridRecommendations now db req).countP (keyP p)
        ≤ (sortByB (fun a b => b.score ≤ a.score) (hybridMerged now db req)).countP
          (keyP p) := (List.take_sublist _ _).countP_le _
      _ = (hybridMerged now db req).countP (keyP p) := (sortByB_perm _ _).countP_eq _
      _ ≤ 1 := hone.le

theorem hybrid_merge_spec_witness :
    (hybridMerged 20 c5Db c5Req).countP (keyP 5) = 1 :=
  (hybrid_merge_spec 20 c5Db c5Req 5 (by decide)).1

def c2Track : TrackBehaviorData := ⟨none, "s", 1, some 5, .view, none⟩

def c2w0 : World := ⟨[⟨1, "main"⟩, ⟨2, "main"⟩], fun _ => emptyStoreDb⟩

def c2w1 : World := runOk c2w0 (trackBehavior 16 c2w0 false c2Track)

def c2w2 : World := runOk c2w1 (trackBehavior 17 c2w1 false c2Track)

def c2w3 : World := runOk c2w2 (trackBehavior 18 c2w2 false c2Track)

def c2Query : RecommendationRequest := ⟨2, none, "t", none, [], some .trending⟩

/-- C2 counterexample: both stores carry the same database URL (exactly
what `createStoreDatabase` assigns, since it gives every store the main
`DATABASE_URL`). Three behavior events tracked under tenant 1 are then
returned by a trending query scoped to tenant 2, so a `BehaviorEvent`
written under one tenant is contained in another tenant's query result. -/
theorem tenant_isolation_counterexample :
    c2Track.storeId = 1 ∧
    (1 : Nat) ≠ 2 ∧
    c2Query.storeId = 2 ∧
    (∀ e ∈ (c2w3.dbs "main").behaviors, e.productId = some 5) ∧
    (c2w3.dbs "main").behaviors.length = 3 ∧
    (worldGenerateRecommendations 20 c2w3 c2Query).map (·.productId) = [5] := by
  refine ⟨rfl, by decide, rfl, by decide, by decide, ?_⟩
  decide

/-- C2 (amended): tenant isolation holds whenever the two tenants resolve
to distinct database URLs: a behavior write under tenant `d.storeId`
changes no recommendation query and no analytics query scoped to a tenant
`t2` whose store carries a different `databaseUrl`. The unamended claim
fails because nothing forces distinct URLs — `createStoreDatabase` assigns
every store the same main URL (see the counterexample). -/
theorem tenant_isolation_distinct_urls (now tnow : Int) (w : World)
    (d : TrackBehaviorData) (fails : Bool) (s1 s2 : StoreRecord) (t2 : Nat)
    (h1 : getStore w d.storeId = some s1) (h2 : getStore w t2 = some s2)
    (hurl : s1.databaseUrl ≠ s2.databaseUrl)
    (w' : World) (hw : trackBehavior tnow w fails d = Except.ok w') :
    (∀ req : RecommendationRequest, req.storeId = t2 →
      worldGenerateRecommendations now w' req = worldGenerateRecommendations now w req) ∧
    (∀ days : Nat, worldGetRecommendationAnalytics now w' t2 days =
      worldGetRecommendationAnalytics now w t2 days) := by
  unfold trackBehavior trackBehaviorTry at hw
  rw [h1] at hw
  cases fails
  · have hw' : w' = updateDbAt w s1.databaseUrl
        (fun db => { db with behaviors := db.behaviors ++ [behaviorRowOf tnow d] }) :=
      (Except.ok.inj hw).symm
    have hstores : ∀ sid, getStore w' sid = getStore w sid := by
      intro sid
      rw [hw']
      rfl
    have hdbs : w'.dbs s2.databaseUrl = w.dbs s2.databaseUrl := by
      rw [hw']
      show (if s2.databaseUrl = s1.databaseUrl then _ else w.dbs s2.databaseUrl) = _
      rw [if_neg (fun h => hurl h.symm)]
    constructor
    · intro req hreq
      unfold worldGenerateRecommendations
      rw [hstores req.storeId, hreq, h2]
      show generateRecommendations now (w'.dbs s2.databaseUrl) req =
        generateRecommendations now (w.dbs s2.databaseUrl) req
      rw [hdbs]
    · intro days
      unfold worldGetRecommendationAnalytics
      rw [hstores t2, h2]
      show Except.ok (getRecommendationAnalytics now (w'.dbs s2.databaseUrl) days) =
        Except.ok (getRecommendationAnalytics now (w.dbs s2.databaseUrl) days)
      rw [hdbs]
  · have hw' : w' = w := (Except.ok.inj hw).symm
    rw [hw']
    exact ⟨fun _ _ => rfl, fun _ => rfl⟩

def c2dTrack : TrackBehaviorData := ⟨none, "s", 1, some 5, .view, none⟩

def c2dW : World := ⟨[⟨1, "urlA"⟩, ⟨2, "urlB"⟩], fun _ => emptyStoreDb⟩

def c2dW' : World :=
  updateDbAt c2dW "urlA"
    (fun db => { db with behaviors := db.behaviors ++ [behaviorRowOf 16 c2dTrack] })

def c2dReq : RecommendationRequest := ⟨2, none, "t", none, [], some .trending⟩

theorem tenant_isolation_distinct_urls_witness :
    worldGenerateRecommendations 20 c2dW' c2dReq =
      worldGenerateRecommendations 20 c2dW c2dReq :=
  (tenant_isolation_distinct_urls 20 16 c2dW c2dTrack false ⟨1, "urlA"⟩ ⟨2, "urlB"⟩ 2
    rfl rfl (by decide) c2dW' rfl).1 c2dReq rfl

/-- The multiset of (possibly NULL) product ids a customer purchased — the
rows the correlated purchase subquery ranges over. -/
def customerPurchaseList (db : StoreDb) (c : Nat) : List (Option Nat) :=
  (db.behaviors.filter
      (fun e => decide (e.action = .purchase) && decide (e.customerId = some c))).map
    (·.productId)

theorem mem_customerPurchasedIds {db : StoreDb} {c : Nat} {p : Nat} :
    p ∈ customerPurchasedIds db c ↔ some p ∈ customerPurchaseList db c := by
  unfold customerPurchasedIds customerPurchaseList
  rw [List.mem_filterMap, List.mem_map]

/-- Per-customer row count of the similar-customer query, in terms of the
customer's purchase list. -/
theorem collabSimilarRows_countP (db : StoreDb) (cid : Nat) (c : Nat) :
    (collabSimilarRows db cid).countP (fun e => decide (e.customerId = some c)) =
      ((customerPurchaseList db c).filter
        (fun p => optInList p (customerPurchasedIds db cid))).length := by
  unfold collabSimilarRows customerPurchaseList
  rw [List.countP_filter, ← List.countP_eq_length_filter, List.countP_map,
    List.countP_filter]
  have hpt : ∀ e : BehaviorEvent,
      (decide (e.customerId = some c) &&
        (decide (e.action = .purchase) &&
          optInList e.productId (customerPurchasedIds db cid))) =
      (optInList e.productId (customerPurchasedIds db cid) &&
        (decide (e.action = .purchase) && decide (e.customerId = some c))) := by
    intro e
    cases decide (e.customerId = some c) <;>
      cases decide (e.action = .purchase) <;>
        cases optInList e.productId (customerPurchasedIds db cid) <;> rfl
  refine List.countP_congr ?_
  intro e _
  simp only [Function.comp_apply]
  rw [hpt e]

theorem map_pid_filter_opt (P : BehaviorEvent → Bool) (q : Option Nat → Bool) :
    ∀ l : List BehaviorEvent,
      (l.filter (fun e => q e.productId && P e)).map (·.productId) =
        ((l.filter P).map (·.productId)).filter q
  | [] => rfl
  | a :: t => by
    by_cases hP : P a = true
    · by_cases hq : q a.productId = true
      · rw [List.filter_cons_of_pos (by rw [hq, hP]; rfl), List.map_cons,
          List.filter_cons_of_pos hP, List.map_cons,
          List.filter_cons_of_pos hq, map_pid_filter_opt P q t]
      · have hq' : q a.productId = false := by simpa using hq
        rw [List.filter_cons_of_neg (by rw [hq']; simp), List.filter_cons_of_pos hP,
          List.map_cons, List.filter_cons_of_neg (by simp [hq']),
          map_pid_filter_opt P q t]
    · have hP' : P a = false := by simpa using hP
      rw [List.filter_cons_of_neg (by rw [hP']; simp), List.filter_cons_of_neg hP,
        map_pid_filter_opt P q t]

/-- C6: in a tenant state where customer `C` purchased exactly `{A, B}`,
customer `D` purchased exactly `{A, B, X}` and every other customer has at
most one purchase among `{A, B}`, a collaborative request for `C` with no
exclusions returns exactly product `X` with score `min (1/10) 1 = 0.1` and
reason list `["Customers like you also purchased this"]`. -/
theorem collab_concrete_scenario (db : StoreDb) (req : RecommendationRequest)
    (C D A B X : Nat)
    (hCid : req.customerId = some C) (hC0 : C ≠ 0) (hX0 : X ≠ 0) (hAB : A ≠ B)
    (hXA : X ≠ A) (hXB : X ≠ B) (hCD : C ≠ D)
    (hEx : req.excludeProductIds = [])
    (hLim : 1 ≤ req.limit.getD 10)
    (hCp : (customerPurchaseList db C).Perm [some A, some B])
    (hDp : (customerPurchaseList db D).Perm [some A, some B, some X])
    (hOther : ∀ c : Nat, c ≠ C → c ≠ D →
      ((customerPurchaseList db c).filter
        (fun p => decide (p = some A) || decide (p = some B))).length ≤ 1) :
    generateCollaborativeRecommendations db req =
      [⟨X, 1 / 10, "collaborative", ["Customers like you also purchased this"]⟩] := by
  have hSA : ∀ p : Nat, p ∈ customerPurchasedIds db C ↔ (p = A ∨ p = B) := by
    intro p
    rw [mem_customerPurchasedIds, hCp.mem_iff]
    simp
  have hInSA : ∀ x : Option Nat,
      optInList x (customerPurchasedIds db C) =
        (decide (x = some A) || decide (x = some B)) := by
    intro x
    cases x with
    | none => simp [optInList]
    | some q =>
      simp only [optInList]
      rw [Bool.eq_iff_iff]
      simp [hSA q]
  have hA1 : optInList (some A) (customerPurchasedIds db C) = true := by
    rw [hInSA]; simp
  have hB1 : optInList (some B) (customerPurchasedIds db C) = true := by
    rw [hInSA]; simp
  have hX1 : optInList (some X) (customerPurchasedIds db C) = false := by
    rw [hInSA]; simp [hXA, hXB]
  have hcC : (collabSimilarRows db C).countP
      (fun e => decide (e.customerId = some C)) = 2 := by
    rw [collabSimilarRows_countP, (hCp.filter _).length_eq]
    simp [List.filter_cons, hA1, hB1]
  have hcD : (collabSimilarRows db C).countP
      (fun e => decide (e.customerId = some D)) = 2 := by
    rw [collabSimilarRows_countP, (hDp.filter _).length_eq]
    simp [List.filter_cons, hA1, hB1, hX1]
  have hcO : ∀ c : Nat, c ≠ C → c ≠ D →
      (collabSimilarRows db C).countP (fun e => decide (e.customerId = some c)) ≤ 1 := by
    intro c h1 h2
    rw [collabSimilarRows_countP]
    calc ((customerPurchaseList db c).filter
          (fun p => optInList p (customerPurchasedIds db C))).length
        = ((customerPurchaseList db c).filter
            (fun p => decide (p = some A) || decide (p = some B))).length := by
          refine congrArg List.length (List.filter_congr ?_)
          intro p _
          rw [hInSA]
      _ ≤ 1 := hOther c h1 h2
  have hGsub : ∀ g ∈ (groupCount (·.customerId) (collabSimilarRows db C)).filter
      (fun g => 1 < g.2), g.1 = some C ∨ g.1 = some D ∨ g.1 = none := by
    intro g hg
    obtain ⟨hgk, hgc⟩ := mem_groupCount.mp (List.mem_filter.mp hg).1
    have hgt : 1 < g.2 := by simpa using (List.mem_filter.mp hg).2
    cases hg1 : g.1 with
    | none => exact Or.inr (Or.inr rfl)
    | some c =>
      by_cases h1 : c = C
      · exact Or.inl (by rw [h1])
      · by_cases h2 : c = D
        · exact Or.inr (Or.inl (by rw [h2]))
        · exfalso
          have hle := hcO c h1 h2
          rw [hg1] at hgc
          rw [hgc] at hgt
          omega
  have hGnodup : (((groupCount (·.customerId) (collabSimilarRows db C)).filter
      (fun g => 1 < g.2)).map Prod.fst).Nodup :=
    ((List.filter_sublist _).map Prod.fst).nodup (groupCount_keys_nodup _ _)
  have hGlen : ((groupCount (·.customerId) (collabSimilarRows db C)).filter
      (fun g => 1 < g.2)).length ≤ 3 := by
    have hsub : ((groupCount (·.customerId) (collabSimilarRows db C)).filter
        (fun g => 1 < g.2)).map Prod.fst ⊆ [some C, some D, none] := by
      intro x hx
      rcases List.mem_map.mp hx with ⟨g, hg, rfl⟩
      rcases hGsub g hg with h | h | h <;> simp [h]
    have h1 := calc
      (((groupCount (·.customerId) (collabSimilarRows db C)).filter
          (fun g => 1 < g.2)).map Prod.fst).length
        = (((groupCount (·.customerId) (collabSimilarRows db C)).filter
            (fun g => 1 < g.2)).map Prod.fst).toFinset.card :=
          (List.toFinset_card_of_nodup hGnodup).symm
      _ ≤ ([some C, some D, none] : List (Option Nat)).toFinset.card := by
          refine Finset.card_le_card ?_
          intro x hx
          rw [List.mem_toFinset] at hx ⊢
          exact hsub hx
      _ ≤ ([some C, some D, none] : List (Option Nat)).length := List.toFinset_card_le _
    simpa using h1
  have hGmem : ∀ x, x ∈ collabSimilarCustomers db C ↔
      x ∈ (groupCount (·.customerId) (collabSimilarRows db C)).filter
        (fun g => 1 < g.2) := by
    intro x
    unfold collabSimilarCustomers
    constructor
    · intro hx
      exact mem_sortByB.mp ((List.take_sublist _ _).mem hx)
    · intro hx
      rw [List.take_of_length_le (by rw [(sortByB_perm _ _).length_eq]; omega)]
      exact mem_sortByB.mpr hx
  have hmemC : ((some C : Option Nat), 2) ∈ collabSimilarCustomers db C := by
    refine (hGmem _).mpr (List.mem_filter.mpr ⟨?_, by simp⟩)
    refine mem_groupCount.mpr ⟨?_, hcC.symm⟩
    have hpos : 0 < (collabSimilarRows db C).countP
        (fun e => decide (e.customerId = some C)) := by omega
    obtain ⟨e, he, hke⟩ := List.countP_pos.mp hpos
    exact List.mem_map.mpr ⟨e, he, by simpa using hke⟩
  have hmemD : ((some D : Option Nat), 2) ∈ collabSimilarCustomers db C := by
    refine (hGmem _).mpr (List.mem_filter.mpr ⟨?_, by simp⟩)
    refine mem_groupCount.mpr ⟨?_, hcD.symm⟩
    have hpos : 0 < (collabSimilarRows db C).countP
        (fun e => decide (e.customerId = some D)) := by omega
    obtain ⟨e, he, hke⟩ := List.countP_pos.mp hpos
    exact List.mem_map.mpr ⟨e, he, by simpa using hke⟩
  have hsimne : (collabSimilarCustomers db C).isEmpty = false := by
    cases hcs : collabSimilarCustomers db C with
    | nil =>
      rw [hcs] at hmemC
      exact absurd hmemC (by simp)
    | cons a t => rfl
  have hidsD : (some D : Option Nat) ∈ collabSimilarCustomerIds db C := by
    unfold collabSimilarCustomerIds
    refine List.mem_filter.mpr ⟨?_, ?_⟩
    · exact List.mem_map.mpr ⟨(some D, 2), hmemD, rfl⟩
    · simp
      exact fun h => hCD h.symm
  have hidsSub : ∀ x ∈ collabSimilarCustomerIds db C, x = some D ∨ x = none := by
    intro x hx
    unfold collabSimilarCustomerIds at hx
    obtain ⟨hx1, hx2⟩ := List.mem_filter.mp hx
    rcases List.mem_map.mp hx1 with ⟨g, hg, rfl⟩
    rcases hGsub g ((hGmem g).mp hg) with h | h | h
    · exfalso
      rw [h] at hx2
      simp at hx2
    · exact Or.inl h
    · exact Or.inr h
  have hInIds : ∀ x : Option Nat,
      optInOptList x (collabSimilarCustomerIds db C) = decide (x = some D) := by
    intro x
    cases x with
    | none => simp [optInOptList]
    | some q =>
      simp only [optInOptList]
      rw [Bool.eq_iff_iff]
      constructor
      · intro hq
        have hmem : (some q : Option Nat) ∈ collabSimilarCustomerIds db C := by
          simpa using hq
        rcases hidsSub _ hmem with h | h
        · simp [h]
        · exact absurd h (by simp)
      · intro hq
        have hqD : q = D := by simpa using hq
        subst hqD
        simpa using hidsD
  have hrows2 : collabCandidateRows db req C (collabSimilarCustomerIds db C) =
      db.behaviors.filter (fun e =>
        optNotInList e.productId (customerPurchasedIds db C) &&
        (decide (e.action = .purchase) && decide (e.customerId = some D))) := by
    unfold collabCandidateRows
    refine List.filter_congr ?_
    intro e _
    rw [hInIds e.customerId, hEx]
    cases decide (e.action = .purchase) <;> cases decide (e.customerId = some D) <;>
      cases optNotInList e.productId (customerPurchasedIds db C) <;> rfl
  have hNA : optNotInList (some A) (customerPurchasedIds db C) = false := by
    have := (hSA A).mpr (Or.inl rfl)
    simp [optNotInList, this]
  have hNB : optNotInList (some B) (customerPurchasedIds db C) = false := by
    have := (hSA B).mpr (Or.inr rfl)
    simp [optNotInList, this]
  have hNX : optNotInList (some X) (customerPurchasedIds db C) = true := by
    have hxn : X ∉ customerPurchasedIds db C := by
      rw [hSA X]
      rintro (h | h)
      · exact hXA h
      · exact hXB h
    simp [optNotInList, hxn]
  have hpids : (collabCandidateRows db req C (collabSimilarCustomerIds db C)).map
      (·.productId) = [some X] := by
    rw [hrows2]
    rw [show (db.behaviors.filter (fun e =>
          optNotInList e.productId (customerPurchasedIds db C) &&
          (decide (e.action = BAction.purchase) && decide (e.customerId = some D)))).map
        (fun x => x.productId) =
      ((db.behaviors.filter (fun e => decide (e.action = BAction.purchase) &&
          decide (e.customerId = some D))).map (fun x => x.productId)).filter
        (fun p => optNotInList p (customerPurchasedIds db C)) from
      map_pid_filter_opt
        (fun e => decide (e.action = BAction.purchase) && decide (e.customerId = some D))
        (fun p => optNotInList p (customerPurchasedIds db C)) db.behaviors]
    show ((customerPurchaseList db D).filter
      (fun p => optNotInList p (customerPurchasedIds db C))) = [some X]
    refine List.perm_singleton.mp ((hDp.filter _).trans ?_)
    rw [show ([some A, some B, some X] : List (Option Nat)).filter
        (fun p => optNotInList p (customerPurchasedIds db C)) = [some X] from by
      simp [List.filter_cons, hNA, hNB, hNX]]
  obtain ⟨e0, he0, ht0⟩ : ∃ e0,
      collabCandidateRows db req C (collabSimilarCustomerIds db C) = [e0] ∧
        e0.productId = some X := by
    cases hr : collabCandidateRows db req C (collabSimilarCustomerIds db C) with
    | nil =>
      rw [hr] at hpids
      exact absurd hpids (by simp)
    | cons e0 t =>
      rw [hr, List.map_cons] at hpids
      have h1 : e0.productId = some X ∧ t.map (·.productId) = [] := by
        have := List.cons.inj hpids
        exact ⟨this.1, this.2⟩
      refine ⟨e0, ?_, h1.1⟩
      rw [show t = [] from List.map_eq_nil.mp h1.2]
  have hg2 : groupCount (·.productId)
      (collabCandidateRows db req C (collabSimilarCustomerIds db C)) = [(some X, 1)] := by
    rw [he0]
    unfold groupCount
    simp [dedupKF, ht0, List.countP_cons]
  have hranked : collabRankedProducts db req C = [(some X, 1)] := by
    unfold collabRankedProducts
    rw [hg2, List.perm_singleton.mp (sortByB_perm _ _)]
    cases hl : req.limit.getD 10 with
    | zero => omega
    | succ n => simp
  unfold generateCollaborativeRecommendations
  rw [hCid]
  simp only [Option.getD_some]
  rw [if_neg (by simp [truthy, hC0]), if_neg (by simp [hsimne]), hranked]
  rw [show ([((some X : Option Nat), 1)].filter (fun g => truthy g.1)) =
    [((some X : Option Nat), 1)] from by simp [List.filter_cons, truthy, hX0]]
  simp only [List.map_cons, List.map_nil, Option.getD_some]
  norm_num

def c6Db : StoreDb :=
  ⟨[⟨some 1, "s", .purchase, some 10, none, "d", "w", 0⟩,
    ⟨some 1, "s", .purchase, some 11, none, "d", "w", 1⟩,
    ⟨some 2, "s", .purchase, some 10, none, "d", "w", 2⟩,
    ⟨some 2, "s", .purchase, some 11, none, "d", "w", 3⟩,
    ⟨some 2, "s", .purchase, some 12, none, "d", "w", 4⟩], [], [], []⟩

def c6Req : RecommendationRequest := ⟨1, some 1, "s", none, [], some .collaborative⟩

theorem collab_concrete_scenario_witness :
    generateCollaborativeRecommendations c6Db c6Req =
      [⟨12, 1 / 10, "collaborative", ["Customers like you also purchased this"]⟩] :=
  collab_concrete_scenario c6Db c6Req 1 2 10 11 12 rfl (by decide) (by decide)
    (by decide) (by decide) (by decide) (by decide) rfl (by decide) (by decide)
    (by decide)
    (by
      intro c h1 h2
      have hnil : customerPurchaseList c6Db c = [] := by
        simp [customerPurchaseList, c6Db, List.filter_cons, Ne.symm h1, Ne.symm h2]
      rw [hnil]
      simp)

def c3Db : StoreDb := ⟨[], [⟨none, "s", 4, 0, 10⟩], [], []⟩

def c3Req : RecommendationRequest := ⟨1, none, "s", none, [9], some .recentlyViewed⟩

theorem excluded_products_never_returned_witness :
    c3Req.excludeProductIds ≠ [] ∧
    0 < (generateRecommendations 100 c3Db c3Req).length ∧
    ∀ r ∈ generateRecommendations 100 c3Db c3Req,
      r.productId ∉ c3Req.excludeProductIds :=
  ⟨by decide, by decide, excluded_products_never_returned 100 c3Db c3Req (by decide)⟩
